import Mathlib

/-!
Verification development for the Piano-Visualizer assisted-practice engine.

The repository contains two near-duplicate engine variants:
* `src/src/components/PianoKeyboard.jsx` — the *window* matching discipline
  (tap within a ±200 ms hit window around a note's start time);
* `src/unnamed/part_000` — the *hold* matching discipline (chord gates that
  freeze song time until every gated note has been held for its duration);
plus the static key table `src/src/utils/Keys.js`.

Times are modelled as exact rationals: wall-clock instants (`performance.now()`)
in milliseconds, song times in seconds, exactly as the source divides by 1000.
All functions below are total, so every modelled handler "never throws".
-/

namespace PianoVisualizer

/-- Per-note lifecycle status, the union of the statuses used by both source
variants (`'upcoming' | 'waiting' | 'holding' | 'hit' | 'missed' |
'early_release' | 'finished'`). -/
inductive Status where
  | upcoming
  | waiting
  | holding
  | hit
  | missed
  | earlyRelease
  | finished
deriving DecidableEq

/-- Session `gameState` (`'idle' | 'playing' | 'paused' | 'waitingForInput' |
'finished'`); `waitingForInput` appears only in the hold variant. -/
inductive GameState where
  | idle
  | playing
  | paused
  | waitingForInput
  | finished
deriving DecidableEq

/-- One scheduled note of `songData`, as built by `handleFileChange`:
`{ id, name, time, duration, status, y }`; the hold variant additionally
stores `pressStartTime` on the note while it is being held.
Rendering-only fields (`left`, `width`) are omitted. -/
structure SongNote where
  id : Nat
  name : String
  time : ℚ
  duration : ℚ
  status : Status
  y : ℚ
  pressStartTime : Option ℚ := none
deriving DecidableEq

/-- The score of the window variant: `{ hits, misses, mistakes }`.
`Int` because the source decrements `hits` with plain JS arithmetic. -/
structure Score where
  hits : Int
  misses : Int
  mistakes : Int
deriving DecidableEq

/-- The score of the hold variant: `{ hits, mistakes }`. -/
structure HScore where
  hits : Int
  mistakes : Int
deriving DecidableEq

/-! ### JS `Set` / `Map` helpers

`heldKeysRef` is a JS `Set` of note names, `activelyHeldAssistedNotes` a JS
`Map`. We model them as lists with the `Set`/`Map` operations used by the
source (`has`, `add`, `delete`, `get`, `set`). -/

/-- `Set.has`. -/
def setHas (x : String) (s : List String) : Bool := s.contains x

/-- `Set.add` (no duplicates). -/
def setAdd (x : String) (s : List String) : List String :=
  if s.contains x then s else x :: s

/-- `Set.delete`. -/
def setDel (x : String) (s : List String) : List String :=
  s.filter (fun y => decide (¬ y = x))

/-- `Map.get`. -/
def mapGet {α : Type} (k : String) (m : List (String × α)) : Option α :=
  (m.find? (fun p => decide (p.1 = k))).map (fun p => p.2)

/-- `Map.has`. -/
def mapHas {α : Type} (k : String) (m : List (String × α)) : Bool :=
  m.any (fun p => decide (p.1 = k))

/-- `Map.delete`. -/
def mapDel {α : Type} (k : String) (m : List (String × α)) : List (String × α) :=
  m.filter (fun p => decide (¬ p.1 = k))

/-- `Map.set` (overwrites the binding for `k`). -/
def mapSet {α : Type} (k : String) (v : α) (m : List (String × α)) :
    List (String × α) :=
  (k, v) :: mapDel k m

/-! ### Shared constants (`PianoKeyboard.jsx`, both variants) -/

/-- `ANIMATION_AREA_HEIGHT = 300`. -/
def ANIMATION_AREA_HEIGHT : ℚ := 300

/-- `NOTE_FALL_SPEED_PPS = 100`. -/
def NOTE_FALL_SPEED_PPS : ℚ := 100

/-- `HIT_WINDOW_MS = 200` (window variant only). -/
def HIT_WINDOW_MS : ℚ := 200

/-- `Math.abs` on rationals. -/
def ratAbs (x : ℚ) : ℚ := if x < 0 then -x else x

end PianoVisualizer

namespace PianoVisualizer.KeysJs

/-! ### `src/src/utils/Keys.js` -/

/-- One entry of the key table: `{ note, type, midi, whiteKeyIndex }`. -/
structure Key where
  note : String
  type : String
  midi : Nat
  whiteKeyIndex : Int
deriving DecidableEq

/-- The `noteNames` array of `generateKeys`. -/
def noteNames : List String :=
  ["C", "C#", "D", "D#"] ++ ["E", "F", "F#", "G"] ++ ["G#", "A", "A#", "B"]

/-- The loop body of `generateKeys`: `fuel` counts the remaining iterations,
`i` is the MIDI number, `wki` the running `whiteKeyIndex`. -/
def genKeysFrom : Nat → Nat → Int → List Key
  | 0, _, _ => []
  | fuel + 1, i, wki =>
      let noteName := noteNames.getD (i % 12) ""
      let octave : Int := (i : Int) / 12 - 1
      let type := if noteName.toList.contains '#' then "black" else "white"
      let key : Key :=
        { note := s!"{noteName}{octave}"
          type := type
          midi := i
          whiteKeyIndex := if type = "white" then wki else wki - 1 }
      key :: genKeysFrom fuel (i + 1) (if type = "white" then wki + 1 else wki)

/-- `generateKeys()`: the 88 keys for MIDI numbers 21 through 108. -/
def generateKeys : List Key := genKeysFrom 88 21 0

/-- `KEYS`. -/
def KEYS : List Key := generateKeys

/-- `WHITE_KEYS`. -/
def WHITE_KEYS : List Key := KEYS.filter (fun k => decide (k.type = "white"))

/-- `BLACK_KEYS`. -/
def BLACK_KEYS : List Key := KEYS.filter (fun k => decide (k.type = "black"))

/-- `NUM_WHITE_KEYS`. -/
def NUM_WHITE_KEYS : Nat := WHITE_KEYS.length

end PianoVisualizer.KeysJs

namespace PianoVisualizer.Window

/-! ### The window-discipline variant, `src/src/components/PianoKeyboard.jsx`

Assisted-practice state only (`practiceMode === 'assisted'`); the free-play
branch and all rendering/audio effects are out of scope per the spec. -/

/-- The assisted-practice session state of the window variant: `gameState`,
the mutable `songData` array, the `heldKeysRef` set, the
`activelyHeldAssistedNotes` map (pitch ↦ the note object it satisfies — the
source stores an object reference; we store the note value and write status
changes back to `songData` by `id`), the score, the clock refs
(`gameStartTime`, `pauseStartTime`, `totalPausedTime`, all in ms) and the
`visualSongNotes` projection. -/
structure WState where
  gameState : GameState
  songData : List SongNote
  heldKeys : List String
  activelyHeld : List (String × SongNote)
  score : Score
  gameStartTime : ℚ
  pauseStartTime : ℚ
  totalPausedTime : ℚ
  visualNotes : List SongNote
deriving DecidableEq

/-- `elapsedTimeS = (nowMs - gameStartTime.current - totalPausedTime.current) / 1000`. -/
def elapsedTimeS (s : WState) (nowMs : ℚ) : ℚ :=
  (nowMs - s.gameStartTime - s.totalPausedTime) / 1000

/-- The `handleNoteOn` match predicate:
`n.name === keyData.note && n.status === 'upcoming' && Math.abs(n.time - elapsedTimeS) < hitWindowS`. -/
def matchesHit (pitch : String) (elapsed : ℚ) (n : SongNote) : Bool :=
  decide (n.name = pitch) && decide (n.status = .upcoming) &&
    decide (ratAbs (n.time - elapsed) < HIT_WINDOW_MS / 1000)

/-- `songData.current.find(...)` followed by the in-place mutation
`targetNote.status = 'hit'`: returns the array after the mutation and the
mutated note (`none` when `find` returns `undefined`). -/
def findAndHit (p : SongNote → Bool) : List SongNote → List SongNote × Option SongNote
  | [] => ([], none)
  | n :: ns =>
    if p n then ({ n with status := .hit } :: ns, some { n with status := .hit })
    else
      let r := findAndHit p ns
      (n :: r.1, r.2)

/-- `handleNoteOn(keyData)` (assisted branch). Early-returns when the key is
already held; otherwise registers the key as held, ignores the press unless
`gameState === 'playing'`, then either hits the found target note
(`hits + 1`) or records a mistake (`mistakes + 1`). -/
def handleNoteOn (s : WState) (pitch : String) (nowMs : ℚ) : WState :=
  if setHas pitch s.heldKeys then s
  else
    let s := { s with heldKeys := setAdd pitch s.heldKeys }
    if ¬ s.gameState = .playing then s
    else
      let elapsed := elapsedTimeS s nowMs
      let fr := findAndHit (matchesHit pitch elapsed) s.songData
      match fr.2 with
      | some target =>
        { s with songData := fr.1
                 activelyHeld := mapSet pitch target s.activelyHeld
                 score := { s.score with hits := s.score.hits + 1 } }
      | none =>
        { s with score := { s.score with mistakes := s.score.mistakes + 1 } }

/-- `handleNoteOff(keyData)` (assisted branch). Early-returns when the key is
not held; otherwise un-registers it, ignores the release unless playing, and
if the pitch satisfies an actively-held note released before
`heldNote.time + heldNote.duration`, marks that note `early_release` and
atomically applies `hits - 1, mistakes + 1`; the map entry is deleted either
way. -/
def handleNoteOff (s : WState) (pitch : String) (nowMs : ℚ) : WState :=
  if ¬ setHas pitch s.heldKeys then s
  else
    let s := { s with heldKeys := setDel pitch s.heldKeys }
    if ¬ s.gameState = .playing then s
    else
      match mapGet pitch s.activelyHeld with
      | none => s
      | some heldNote =>
        let elapsed := elapsedTimeS s nowMs
        let noteEndTime := heldNote.time + heldNote.duration
        let s :=
          if elapsed < noteEndTime then
            { s with
                songData := s.songData.map (fun n =>
                  if n.id = heldNote.id then { n with status := .earlyRelease } else n)
                score := { s.score with
                            hits := s.score.hits - 1
                            mistakes := s.score.mistakes + 1 } }
          else s
        { s with activelyHeld := mapDel pitch s.activelyHeld }

/-- `timeToSpawn = timeToHit - ANIMATION_AREA_HEIGHT / NOTE_FALL_SPEED_PPS`. -/
def timeToSpawn (n : SongNote) : ℚ :=
  n.time - ANIMATION_AREA_HEIGHT / NOTE_FALL_SPEED_PPS

/-- `y = (elapsedTimeS - timeToSpawn) * NOTE_FALL_SPEED_PPS`. -/
def noteY (elapsed : ℚ) (n : SongNote) : ℚ :=
  (elapsed - timeToSpawn n) * NOTE_FALL_SPEED_PPS

/-- The per-note body of the `animationLoop` `forEach`: skip `finished`
notes; once spawned, store `y`, mark an `upcoming` note past the bottom edge
(`y > ANIMATION_AREA_HEIGHT`) as `missed`, and mark a note whose top edge
left the area (`noteTopY >= ANIMATION_AREA_HEIGHT`) as `finished`. -/
def stepNote (elapsed : ℚ) (n : SongNote) : SongNote :=
  if n.status = .finished then n
  else if timeToSpawn n ≤ elapsed then
    let y := noteY elapsed n
    let n1 : SongNote := { n with y := y }
    let n2 : SongNote :=
      if ANIMATION_AREA_HEIGHT < y ∧ n1.status = .upcoming
      then { n1 with status := .missed } else n1
    if ANIMATION_AREA_HEIGHT ≤ y - n.duration * NOTE_FALL_SPEED_PPS
    then { n2 with status := .finished } else n2
  else n

/-- The condition under which the `forEach` body increments
`missedNotesThisFrame` for a note. -/
def missesThisFrame (elapsed : ℚ) (n : SongNote) : Bool :=
  decide (timeToSpawn n ≤ elapsed) && decide (n.status = .upcoming) &&
    decide (ANIMATION_AREA_HEIGHT < noteY elapsed n)

/-- Membership in `notesToDisplay`, evaluated on the note after `stepNote`:
pushed iff it spawned and did not end up `finished`. -/
def displayed (elapsed : ℚ) (n : SongNote) : Bool :=
  decide (¬ n.status = .finished) && decide (timeToSpawn n ≤ elapsed)

/-- One invocation of the assisted branch of `animationLoop(currentTime)`:
runs only while `gameState === 'playing'`; transitions note statuses,
accumulates `misses`, publishes `visualSongNotes`, and flips to `finished`
when every note is finished. -/
def animationLoop (s : WState) (nowMs : ℚ) : WState :=
  if s.gameState = .playing then
    let elapsed := elapsedTimeS s nowMs
    let newSong := s.songData.map (stepNote elapsed)
    let missedCount := (s.songData.filter (missesThisFrame elapsed)).length
    let visual := newSong.filter (displayed elapsed)
    let allFinished : Bool :=
      !newSong.isEmpty && newSong.all (fun n => decide (n.status = .finished))
    { s with songData := newSong
             score := { s.score with misses := s.score.misses + (missedCount : Int) }
             visualNotes := visual
             gameState := if allFinished then .finished else s.gameState }
  else s

/-- `startAssistedPractice()`: no-op on an empty song; otherwise clears the
visual notes, score and held map, resets every status to `'upcoming'`, sets
`gameStartTime = performance.now()`, zeroes the pause accumulators and enters
`playing`. -/
def startAssistedPractice (s : WState) (nowMs : ℚ) : WState :=
  if s.songData.isEmpty then s
  else
    { s with visualNotes := []
             score := { hits := 0, misses := 0, mistakes := 0 }
             activelyHeld := []
             songData := s.songData.map (fun n => { n with status := .upcoming })
             gameStartTime := nowMs
             totalPausedTime := 0
             pauseStartTime := 0
             gameState := .playing }

/-- `handlePlayControls()`: playing → paused (recording `pauseStartTime`);
paused → playing (adding the paused wall-clock span to `totalPausedTime`);
idle/finished → `startAssistedPractice()`. -/
def handlePlayControls (s : WState) (nowMs : ℚ) : WState :=
  if s.gameState = .playing then
    { s with gameState := .paused, pauseStartTime := nowMs }
  else if s.gameState = .paused then
    { s with totalPausedTime := s.totalPausedTime + (nowMs - s.pauseStartTime)
             gameState := .playing }
  else startAssistedPractice s nowMs

end PianoVisualizer.Window

namespace PianoVisualizer.Hold

/-! ### The hold-discipline variant, `src/unnamed/part_000`

This variant owns a delta-accumulated song clock (`songTime`,
`lastTimestamp`), a chord-gate wait set (`waitingNotes`, stored as the ids of
the note objects the source array holds by reference) and the pitch ↦ note
map `activelyHeldAssistedNotes` (stored as pitch ↦ note id, since the source
map aliases the `songData` objects and all mutations are visible there). -/

/-- Session state of the hold variant. -/
structure HState where
  gameState : GameState
  songData : List SongNote
  heldKeys : List String
  activelyHeld : List (String × Nat)
  waitingNotes : List Nat
  songTime : ℚ
  lastTimestamp : ℚ
  score : HScore
  visualNotes : List SongNote
  prePauseGameState : GameState
deriving DecidableEq

/-- `delta = lastTimestamp.current > 0 ? (now - lastTimestamp.current) / 1000 : 0`. -/
def hDelta (s : HState) (now : ℚ) : ℚ :=
  if 0 < s.lastTimestamp then (now - s.lastTimestamp) / 1000 else 0

/-- The `waitingForInput` branch of the loop: every note referenced by
`activelyHeldAssistedNotes` that is `'holding'` and has been held for at
least its duration (`(currentTime - pressStartTime) / 1000 >= duration`)
becomes `'hit'`. A note without `pressStartTime` never qualifies (in JS the
NaN comparison is false). -/
def holdCond (now : ℚ) (held : List (String × Nat)) (n : SongNote) : Bool :=
  held.any (fun p => decide (p.2 = n.id)) && decide (n.status = .holding) &&
    (match n.pressStartTime with
     | some t0 => decide (n.duration ≤ (now - t0) / 1000)
     | none => false)

def holdCheckNote (now : ℚ) (held : List (String × Nat)) (n : SongNote) : SongNote :=
  if holdCond now held n then { n with status := .hit } else n

/-- The `forEach` over `activelyHeldAssistedNotes`, expressed as a map over
the aliased `songData` array. -/
def holdCheck (now : ℚ) (held : List (String × Nat)) (song : List SongNote) :
    List SongNote :=
  song.map (holdCheckNote now held)

/-- `timeToSpawn = note.time - ANIMATION_AREA_HEIGHT / NOTE_FALL_SPEED_PPS`. -/
def hSpawned (elapsed : ℚ) (n : SongNote) : Bool :=
  decide (n.time - ANIMATION_AREA_HEIGHT / NOTE_FALL_SPEED_PPS ≤ elapsed)

/-- `y = (elapsedTimeS - note.time) * NOTE_FALL_SPEED_PPS + ANIMATION_AREA_HEIGHT`. -/
def hNoteY (elapsed : ℚ) (n : SongNote) : ℚ :=
  (elapsed - n.time) * NOTE_FALL_SPEED_PPS + ANIMATION_AREA_HEIGHT

/-- The display `forEach` body: skip `finished` notes; once spawned store `y`
and mark the note `finished` when its top edge left the area. -/
def hStepNote (elapsed : ℚ) (n : SongNote) : SongNote :=
  if n.status = .finished then n
  else if hSpawned elapsed n then
    let n1 : SongNote := { n with y := hNoteY elapsed n }
    if ANIMATION_AREA_HEIGHT ≤ hNoteY elapsed n - n.duration * NOTE_FALL_SPEED_PPS
    then { n1 with status := .finished } else n1
  else n

/-- Membership in `notesToDisplay` (evaluated on the stepped note). -/
def hDisplayed (elapsed : ℚ) (n : SongNote) : Bool :=
  decide (¬ n.status = .finished) && hSpawned elapsed n

/-- The `notesToWaitFor.forEach(n => n.status = 'waiting')` mutation, as the
per-note function applied to the aliased array: an `upcoming` note whose
start time equals the gate time `t` becomes `waiting`. -/
def gateNote (t : ℚ) (n : SongNote) : SongNote :=
  if decide (n.status = .upcoming) && decide (n.time = t)
  then { n with status := .waiting } else n

/-- One invocation of the assisted branch of `animationLoop(now)`: advance
the clock by `delta` while `playing`; while `waitingForInput` resolve expired
holds; if the clock reached the first upcoming note's start time, clamp the
clock to it, move the whole equal-start chord into `waiting`, record the wait
set and enter `waitingForInput`; then compute the display from the
pre-clamp `elapsedTimeS` and detect song completion. -/
def animationLoop (s0 : HState) (now : ℚ) : HState :=
  let delta := hDelta s0 now
  let s := { s0 with lastTimestamp := now }
  if s.gameState = .playing ∨ s.gameState = .waitingForInput then
    let s1 :=
      if s.gameState = .playing then { s with songTime := s.songTime + delta } else s
    let s2 :=
      if s.gameState = .waitingForInput then
        { s1 with songData := holdCheck now s1.activelyHeld s1.songData }
      else s1
    let elapsed := s2.songTime
    let upcoming := s2.songData.filter (fun n => decide (n.status = .upcoming))
    let s3 :=
      if s.gameState = .playing then
        match upcoming with
        | [] => s2
        | u :: _ =>
          if u.time ≤ elapsed then
            { s2 with
                songTime := u.time
                songData := s2.songData.map (gateNote u.time)
                waitingNotes :=
                  (upcoming.filter (fun n => decide (n.time = u.time))).map (fun n => n.id)
                gameState := .waitingForInput }
          else s2
      else s2
    let newSong := s3.songData.map (hStepNote elapsed)
    let visual := newSong.filter (hDisplayed elapsed)
    let finishedB : Bool :=
      upcoming.isEmpty && s3.waitingNotes.isEmpty && visual.isEmpty
    { s3 with songData := newSong
              visualNotes := visual
              gameState := if finishedB then .finished else s3.gameState }
  else s

/-- Whether an invocation of `animationLoop` at `now` opens a chord gate: the
session is `playing`, some note is still `upcoming`, and the clock advanced by
`delta` has reached the first upcoming note's start time. -/
def gateFires (s : HState) (now : ℚ) : Bool :=
  decide (s.gameState = .playing) &&
    (match s.songData.filter (fun n => decide (n.status = .upcoming)) with
     | [] => false
     | u :: _ => decide (u.time ≤ s.songTime + hDelta s now))

/-- The wait set as note values: `waitingNotes.current` holds references into
`songData`, so each id is resolved against the current array. -/
def waitSet (s : HState) : List SongNote :=
  s.waitingNotes.filterMap (fun i => s.songData.find? (fun n => decide (n.id = i)))

/-- `waitingNotes.current.find(n => n.name === keyData.note && n.status === 'waiting')`. -/
def findWaiting (s : HState) (pitch : String) : Option SongNote :=
  (waitSet s).find? (fun n =>
    decide (n.name = pitch) && decide (n.status = .waiting))

/-- `handleNoteOn(keyData)` (assisted branch of the hold variant): ignore
duplicate presses and presses outside `playing`/`waitingForInput`; a press
matching a `waiting` note moves it to `'holding'` with
`pressStartTime = performance.now()` and registers it in the held map; an
unmatched press during `waitingForInput` on a pitch not already satisfying a
note records a mistake. -/
def handleNoteOn (s : HState) (pitch : String) (now : ℚ) : HState :=
  if setHas pitch s.heldKeys then s
  else
    let s := { s with heldKeys := setAdd pitch s.heldKeys }
    if ¬ s.gameState = .playing ∧ ¬ s.gameState = .waitingForInput then s
    else
      match findWaiting s pitch with
      | some wn =>
        { s with
            songData := s.songData.map (fun n =>
              if n.id = wn.id
              then { n with status := .holding, pressStartTime := some now } else n)
            activelyHeld := mapSet pitch wn.id s.activelyHeld }
      | none =>
        if s.gameState = .waitingForInput ∧ ¬ mapHas pitch s.activelyHeld then
          { s with score := { s.score with mistakes := s.score.mistakes + 1 } }
        else s

/-- `handleNoteOff(keyData)` (assisted branch of the hold variant): ignore
releases of un-held keys; releasing a tracked note that reached `'hit'`
credits `hits + 1`, removes it from the wait set and unblocks the gate
(back to `playing`) when the wait set empties; releasing one still
`'holding'` records a mistake and rolls the note back to `'waiting'`,
clearing `pressStartTime`. -/
def handleNoteOff (s : HState) (pitch : String) (_now : ℚ) : HState :=
  if ¬ setHas pitch s.heldKeys then s
  else
    let s := { s with heldKeys := setDel pitch s.heldKeys }
    match mapGet pitch s.activelyHeld with
    | none => s
    | some noteId =>
      let s := { s with activelyHeld := mapDel pitch s.activelyHeld }
      match s.songData.find? (fun n => decide (n.id = noteId)) with
      | none => s
      | some heldNoteData =>
        if heldNoteData.status = .hit then
          let waiting' := s.waitingNotes.filter (fun i => decide (¬ i = noteId))
          { s with
              score := { s.score with hits := s.score.hits + 1 }
              waitingNotes := waiting'
              gameState :=
                if waiting'.isEmpty ∧ s.gameState = .waitingForInput
                then .playing else s.gameState }
        else if heldNoteData.status = .holding then
          { s with
              score := { s.score with mistakes := s.score.mistakes + 1 }
              songData := s.songData.map (fun n =>
                if n.id = noteId
                then { n with status := .waiting, pressStartTime := none } else n) }
        else s

end PianoVisualizer.Hold

namespace PianoVisualizer.Samples

/-! ### Concrete states used by witnesses and counterexamples -/

/-- A C4 quarter-ish note starting at 1 s. -/
def n0 : SongNote :=
  { id := 0, name := "C4", time := 1, duration := 1, status := .upcoming, y := 0 }

/-- A second C4 note starting at 1.1 s (tie-break candidate). -/
def n1 : SongNote :=
  { id := 1, name := "C4", time := 11/10, duration := 1, status := .upcoming, y := 0 }

/-- A playing window-variant session holding `n0` only. -/
def wPlaying : Window.WState :=
  { gameState := .playing, songData := [n0], heldKeys := [], activelyHeld := []
    score := { hits := 0, misses := 0, mistakes := 0 }
    gameStartTime := 0, pauseStartTime := 0, totalPausedTime := 0, visualNotes := [] }

/-- A playing window-variant session with two in-window C4 candidates. -/
def wTie : Window.WState :=
  { wPlaying with songData := [n0, n1] }

/-- `n0` already hit and actively held. -/
def n0hit : SongNote := { n0 with status := .hit }

/-- A window-variant session with `n0` hit and the C4 key held. -/
def wHolding : Window.WState :=
  { wPlaying with songData := [n0hit], heldKeys := ["C4"]
                  activelyHeld := [("C4", n0hit)]
                  score := { hits := 1, misses := 0, mistakes := 0 } }

/-- An idle window-variant session. -/
def wIdle : Window.WState := { wPlaying with gameState := .idle }

/-- A D4 note starting at 4.01 s: on the gating frame below it has already
spawned at the pre-clamp elapsed time 1.02 s but not at the clamped 1 s. -/
def hLate : SongNote :=
  { id := 1, name := "D4", time := 401/100, duration := 1, status := .upcoming, y := 0 }

/-- A playing hold-variant session about to open the chord gate at 1 s. -/
def hGateState : Hold.HState :=
  { gameState := .playing, songData := [n0, hLate], heldKeys := [], activelyHeld := []
    waitingNotes := [], songTime := 1, lastTimestamp := 1000
    score := { hits := 0, mistakes := 0 }, visualNotes := []
    prePauseGameState := .idle }

/-- A playing hold-variant session whose next gate (at 1 s) is still ahead. -/
def hQuiet : Hold.HState :=
  { hGateState with songTime := 1/2 }

/-- `n0` gated and waiting for input. -/
def n0wait : SongNote := { n0 with status := .waiting, y := 300 }

/-- A hold-variant session whose gate at 1 s is waiting on C4. -/
def hWaiting : Hold.HState :=
  { gameState := .waitingForInput, songData := [n0wait], heldKeys := []
    activelyHeld := [], waitingNotes := [0], songTime := 1, lastTimestamp := 2000
    score := { hits := 0, mistakes := 0 }, visualNotes := []
    prePauseGameState := .idle }

/-- `n0` currently being held (press started at wall-clock 1000 ms). -/
def n0holding : SongNote :=
  { n0 with status := .holding, y := 300, pressStartTime := some 1000 }

/-- A hold-variant session waiting on `n0`, which is being held. -/
def hHolding : Hold.HState :=
  { gameState := .waitingForInput, songData := [n0holding], heldKeys := ["C4"]
    activelyHeld := [("C4", 0)], waitingNotes := [0], songTime := 1
    lastTimestamp := 2000, score := { hits := 0, mistakes := 0 }
    visualNotes := [], prePauseGameState := .idle }

/-- `n0` held past its duration and marked hit, key still down. -/
def n0hitHeld : SongNote :=
  { n0 with status := .hit, y := 300, pressStartTime := some 1000 }

/-- A hold-variant session whose single gate note is hit and still held. -/
def hHitHeld : Hold.HState :=
  { hHolding with songData := [n0hitHeld] }

end PianoVisualizer.Samples

namespace PianoVisualizer

open Window Hold Samples

/-! ## Claim theorems -/

/-- `findAndHit` returns `none` exactly when no note satisfies the search
predicate (in which case the array is left untouched by the caller). -/
theorem findAndHit_none {p : SongNote → Bool} {l : List SongNote} :
    (findAndHit p l).2 = none ↔ ∀ n ∈ l, p n = false := by
  induction l with
  | nil => simp [findAndHit]
  | cons n ns ih =>
    by_cases hp : p n
    · simp [findAndHit, hp]
    · simp only [findAndHit, hp, if_false, Bool.false_eq_true, ih,
        List.mem_cons, forall_eq_or_imp]
      simp [Bool.not_eq_true] at hp
      simp [hp]

/-- When `findAndHit` finds a target, the target is a note of the array with
the predicate true, its status is set to `'hit'`, and every other entry is
untouched. -/
theorem findAndHit_some {p : SongNote → Bool} {l : List SongNote} {t : SongNote}
    (h : (findAndHit p l).2 = some t) :
    ∃ i, ∃ hi : i < l.length, p (l.get ⟨i, hi⟩) = true ∧
      t = { l.get ⟨i, hi⟩ with status := .hit } ∧
      (findAndHit p l).1 = l.set i t := by
  induction l with
  | nil => simp [findAndHit] at h
  | cons n ns ih =>
    by_cases hp : p n
    · simp only [findAndHit, hp, if_true] at h
      refine ⟨0, Nat.succ_pos _, by simpa using hp, ?_, ?_⟩
      · exact (Option.some.injEq _ _ ▸ h).symm
      · have ht : t = { n with status := .hit } := (Option.some.injEq _ _ ▸ h).symm
        subst ht
        simp [findAndHit, hp]
    · simp only [findAndHit, hp, if_false, Bool.false_eq_true] at h
      obtain ⟨i, hi, h1, h2, h3⟩ := ih h
      refine ⟨i + 1, Nat.succ_lt_succ hi, by simpa using h1, by simpa using h2, ?_⟩
      simp [findAndHit, hp, h3]

/-- In a start-time-sorted array, the note `findAndHit` resolves has the
earliest start time among all notes satisfying the predicate. -/
theorem findAndHit_min {p : SongNote → Bool} {l : List SongNote} {t : SongNote}
    (hsort : l.Pairwise (fun a b => a.time ≤ b.time))
    (h : (findAndHit p l).2 = some t) :
    ∀ m ∈ l, p m = true → t.time ≤ m.time := by
  induction l with
  | nil => simp [findAndHit] at h
  | cons n ns ih =>
    rcases List.pairwise_cons.mp hsort with ⟨hn, hns⟩
    by_cases hp : p n
    · simp only [findAndHit, hp, if_true] at h
      have ht : t = { n with status := .hit } := (Option.some.injEq _ _ ▸ h).symm
      intro m hm _
      rcases List.mem_cons.mp hm with rfl | hm'
      · simp [ht]
      · simpa [ht] using hn m hm'
    · simp only [findAndHit, hp, if_false, Bool.false_eq_true] at h
      intro m hm hpm
      rcases List.mem_cons.mp hm with rfl | hm'
      · exact absurd hpm (by simpa using hp)
      · exact ih hns h m hm' hpm

/-- Evaluation of `handleNoteOn` under a fresh press while playing: the
handler reduces to the `find`-then-score branch of the source. -/
theorem handleNoteOn_playing (s : Window.WState) (pitch : String) (now : ℚ)
    (hheld : setHas pitch s.heldKeys = false)
    (hplay : s.gameState = .playing) :
    Window.handleNoteOn s pitch now =
      match (findAndHit (matchesHit pitch (elapsedTimeS s now)) s.songData).2 with
      | some target =>
        { s with heldKeys := setAdd pitch s.heldKeys
                 songData := (findAndHit (matchesHit pitch (elapsedTimeS s now)) s.songData).1
                 activelyHeld := mapSet pitch target s.activelyHeld
                 score := { s.score with hits := s.score.hits + 1 } }
      | none =>
        { s with heldKeys := setAdd pitch s.heldKeys
                 score := { s.score with mistakes := s.score.mistakes + 1 } } := by
  simp [Window.handleNoteOn, hheld, hplay, elapsedTimeS]

/-- **C1** (Window discipline hit/mistake): while playing, a fresh note-on
for `pitch`: if some note matches (`name = pitch`, status `upcoming`,
`|time − elapsed| < 0.2 s`) then one matching note's status becomes `hit`,
all other entries are untouched, and `hits` rises by exactly 1 (`mistakes`,
`misses` unchanged); if no note matches, no note changes and `mistakes`
rises by exactly 1 (`hits`, `misses` unchanged). `handleNoteOn` is a total
function, so no exception can be thrown. -/
theorem claim1_window_hit_window (s : Window.WState) (pitch : String) (now : ℚ)
    (hheld : setHas pitch s.heldKeys = false)
    (hplay : s.gameState = .playing) :
    ((∃ n ∈ s.songData, matchesHit pitch (elapsedTimeS s now) n = true) →
      ∃ i, ∃ hi : i < s.songData.length,
        matchesHit pitch (elapsedTimeS s now) (s.songData.get ⟨i, hi⟩) = true ∧
        (Window.handleNoteOn s pitch now).songData
          = s.songData.set i { s.songData.get ⟨i, hi⟩ with status := .hit } ∧
        (Window.handleNoteOn s pitch now).score.hits = s.score.hits + 1 ∧
        (Window.handleNoteOn s pitch now).score.mistakes = s.score.mistakes ∧
        (Window.handleNoteOn s pitch now).score.misses = s.score.misses) ∧
    ((∀ n ∈ s.songData, matchesHit pitch (elapsedTimeS s now) n = false) →
      (Window.handleNoteOn s pitch now).songData = s.songData ∧
      (Window.handleNoteOn s pitch now).score.mistakes = s.score.mistakes + 1 ∧
      (Window.handleNoteOn s pitch now).score.hits = s.score.hits ∧
      (Window.handleNoteOn s pitch now).score.misses = s.score.misses) := by
  rw [handleNoteOn_playing s pitch now hheld hplay]
  constructor
  · rintro ⟨n, hn, hpn⟩
    obtain ⟨t, ht⟩ :
        ∃ t, (findAndHit (matchesHit pitch (elapsedTimeS s now)) s.songData).2 = some t := by
      rcases ho : (findAndHit (matchesHit pitch (elapsedTimeS s now)) s.songData).2 with _ | t
      · exact absurd (findAndHit_none.mp ho n hn) (by simp [hpn])
      · exact ⟨t, rfl⟩
    obtain ⟨i, hi, h1, h2, h3⟩ := findAndHit_some ht
    rw [ht]
    exact ⟨i, hi, h1, by simp [h3, h2], by simp, by simp, by simp⟩
  · intro hall
    have hnone : (findAndHit (matchesHit pitch (elapsedTimeS s now)) s.songData).2 = none :=
      findAndHit_none.mpr hall
    rw [hnone]
    exact ⟨by simp, by simp, by simp, by simp⟩

/-- Witness for C1: pressing C4 at 1.05 s hits the note scheduled at 1 s;
the same theorem also covers the no-match branch vacuously. -/
theorem claim1_witness :
    (setHas "C4" wPlaying.heldKeys = false ∧ wPlaying.gameState = .playing ∧
      (∃ n ∈ wPlaying.songData, matchesHit "C4" (elapsedTimeS wPlaying 1050) n = true)) ∧
    ((∃ n ∈ wPlaying.songData, matchesHit "C4" (elapsedTimeS wPlaying 1050) n = true) →
      ∃ i, ∃ hi : i < wPlaying.songData.length,
        matchesHit "C4" (elapsedTimeS wPlaying 1050) (wPlaying.songData.get ⟨i, hi⟩) = true ∧
        (Window.handleNoteOn wPlaying "C4" 1050).songData
          = wPlaying.songData.set i { wPlaying.songData.get ⟨i, hi⟩ with status := .hit } ∧
        (Window.handleNoteOn wPlaying "C4" 1050).score.hits = wPlaying.score.hits + 1 ∧
        (Window.handleNoteOn wPlaying "C4" 1050).score.mistakes = wPlaying.score.mistakes ∧
        (Window.handleNoteOn wPlaying "C4" 1050).score.misses = wPlaying.score.misses) :=
  ⟨⟨by decide, by decide,
      ⟨n0, by decide,
        by norm_num [matchesHit, elapsedTimeS, wPlaying, n0, ratAbs, HIT_WINDOW_MS]⟩⟩,
    (claim1_window_hit_window wPlaying "C4" 1050 (by decide) (by decide)).1⟩

/-- **C7** (Tie-break): in the window variant, `handleNoteOn` resolves via
`songData.find`, so on a start-time-sorted array the resolved note has the
earliest `startTime` among all notes satisfying the matching criterion, and
it is the note registered in the held map; in the hold variant the resolved
`waiting` note belongs to the wait set, whose members all share the gate
start time, so it is likewise an earliest candidate. -/
theorem claim7_earliest_candidate (s : Window.WState) (pitch : String) (now : ℚ)
    (t : SongNote) (sH : Hold.HState) (pitchH : String) (wn : SongNote) (gateT : ℚ)
    (hheld : setHas pitch s.heldKeys = false)
    (hplay : s.gameState = .playing)
    (hsort : s.songData.Pairwise (fun a b => a.time ≤ b.time))
    (hfound : (findAndHit (matchesHit pitch (elapsedTimeS s now)) s.songData).2 = some t)
    (hgate : ∀ m ∈ Hold.waitSet sH, m.time = gateT)
    (hfoundH : Hold.findWaiting sH pitchH = some wn) :
    ((∀ m ∈ s.songData, matchesHit pitch (elapsedTimeS s now) m = true → t.time ≤ m.time) ∧
      (Window.handleNoteOn s pitch now).activelyHeld = mapSet pitch t s.activelyHeld) ∧
    (wn ∈ Hold.waitSet sH ∧ wn.time = gateT ∧
      ∀ m ∈ Hold.waitSet sH,
        (decide (m.name = pitchH) && decide (m.status = .waiting)) = true →
          wn.time ≤ m.time) := by
  have hmem : wn ∈ Hold.waitSet sH := List.mem_of_find?_eq_some hfoundH
  refine ⟨⟨findAndHit_min hsort hfound, ?_⟩, hmem, hgate wn hmem, ?_⟩
  · rw [handleNoteOn_playing s pitch now hheld hplay, hfound]
  · intro m hm _
    rw [hgate wn hmem, hgate m hm]

/-- Witness for C7: two C4 notes at 1 s and 1.1 s are both inside the window
at elapsed 1.05 s; the resolved target is the earlier one. The hold part is
witnessed by the single-note gate of `hWaiting`. -/
theorem claim7_witness :
    (setHas "C4" wTie.heldKeys = false ∧ wTie.gameState = .playing ∧
      wTie.songData.Pairwise (fun a b => a.time ≤ b.time) ∧
      (findAndHit (matchesHit "C4" (elapsedTimeS wTie 1050)) wTie.songData).2
        = some { n0 with status := .hit } ∧
      (∀ m ∈ Hold.waitSet hWaiting, m.time = 1) ∧
      Hold.findWaiting hWaiting "C4" = some n0wait) ∧
    (((∀ m ∈ wTie.songData,
        matchesHit "C4" (elapsedTimeS wTie 1050) m = true →
          (SongNote.time { n0 with status := .hit }) ≤ m.time) ∧
      (Window.handleNoteOn wTie "C4" 1050).activelyHeld
        = mapSet "C4" { n0 with status := .hit } wTie.activelyHeld) ∧
    (n0wait ∈ Hold.waitSet hWaiting ∧ n0wait.time = 1 ∧
      ∀ m ∈ Hold.waitSet hWaiting,
        (decide (m.name = "C4") && decide (m.status = .waiting)) = true →
          n0wait.time ≤ m.time)) :=
  ⟨⟨by decide, by decide,
      by norm_num [wTie, wPlaying, n0, n1, List.pairwise_cons],
      by norm_num [findAndHit, matchesHit, elapsedTimeS, wTie, wPlaying, n0, n1,
        ratAbs, HIT_WINDOW_MS],
      by decide, by decide⟩,
    claim7_earliest_candidate wTie "C4" 1050 { n0 with status := .hit } hWaiting "C4"
      n0wait 1 (by decide) (by decide)
      (by norm_num [wTie, wPlaying, n0, n1, List.pairwise_cons])
      (by norm_num [findAndHit, matchesHit, elapsedTimeS, wTie, wPlaying, n0, n1,
        ratAbs, HIT_WINDOW_MS])
      (by decide) (by decide)⟩

/-- `missesThisFrame` holds for an `upcoming` note exactly when the elapsed
song time is strictly past the note's start time — not its start time plus
the 200 ms hit window. -/
theorem missesThisFrame_iff (e : ℚ) (n : SongNote) (hup : n.status = .upcoming) :
    missesThisFrame e n = true ↔ n.time < e := by
  simp only [missesThisFrame, timeToSpawn, noteY, ANIMATION_AREA_HEIGHT,
    NOTE_FALL_SPEED_PPS, hup, Bool.and_eq_true, decide_eq_true_eq]
  constructor
  · rintro ⟨⟨-, -⟩, h3⟩
    nlinarith
  · intro h
    exact ⟨⟨by linarith, trivial⟩, by nlinarith⟩

/-- An `upcoming` note whose start time is already past transitions out of
`upcoming` at the next tick: to `finished` if the whole note has scrolled
by, otherwise to `missed`. -/
theorem stepNote_upcoming_late (e : ℚ) (n : SongNote) (hup : n.status = .upcoming)
    (hlt : n.time < e) :
    (stepNote e n).status
      = (if n.time + n.duration ≤ e then Status.finished else .missed) := by
  have hspawn : timeToSpawn n ≤ e := by
    simp only [timeToSpawn, ANIMATION_AREA_HEIGHT, NOTE_FALL_SPEED_PPS]
    linarith
  have hy : ANIMATION_AREA_HEIGHT < noteY e n := by
    simp only [timeToSpawn, noteY, ANIMATION_AREA_HEIGHT, NOTE_FALL_SPEED_PPS]
    nlinarith
  by_cases hfin : n.time + n.duration ≤ e
  · have : ANIMATION_AREA_HEIGHT ≤ noteY e n - n.duration * NOTE_FALL_SPEED_PPS := by
      simp only [timeToSpawn, noteY, ANIMATION_AREA_HEIGHT, NOTE_FALL_SPEED_PPS]
      nlinarith
    simp [stepNote, hup, hspawn, hy, this, hfin]
  · have : ¬ ANIMATION_AREA_HEIGHT ≤ noteY e n - n.duration * NOTE_FALL_SPEED_PPS := by
      simp only [timeToSpawn, noteY, ANIMATION_AREA_HEIGHT, NOTE_FALL_SPEED_PPS]
      intro hc
      nlinarith [not_le.mp hfin]
    simp [stepNote, hup, hspawn, hy, this, hfin]

/-- An `upcoming` note whose start time has not yet been reached stays
`upcoming` through a tick (its duration being positive). -/
theorem stepNote_upcoming_early (e : ℚ) (n : SongNote) (hup : n.status = .upcoming)
    (hle : e ≤ n.time) (hdur : 0 < n.duration) :
    (stepNote e n).status = .upcoming := by
  have hy : ¬ ANIMATION_AREA_HEIGHT < noteY e n := by
    simp only [timeToSpawn, noteY, ANIMATION_AREA_HEIGHT, NOTE_FALL_SPEED_PPS]
    intro hc
    nlinarith
  have hfin : ¬ ANIMATION_AREA_HEIGHT ≤ noteY e n - n.duration * NOTE_FALL_SPEED_PPS := by
    simp only [timeToSpawn, noteY, ANIMATION_AREA_HEIGHT, NOTE_FALL_SPEED_PPS]
    intro hc
    nlinarith
  by_cases hspawn : timeToSpawn n ≤ e
  · simp [stepNote, hup, hspawn, hy, hfin]
  · simp [stepNote, hup, hspawn]

/-- **C4 counterexample**: with the only note scheduled at 1 s (duration 1 s)
and a tick at elapsed 1.1 s — strictly inside the 200 ms hit window — the
window-variant `animationLoop` already marks the note `missed` and counts a
miss, contradicting the claim that a note is never marked missed while the
elapsed time is within the hit window of its start time. -/
theorem claim4_counterexample :
    ratAbs (elapsedTimeS wPlaying 1100 - n0.time) < HIT_WINDOW_MS / 1000 ∧
    (Window.animationLoop wPlaying 1100).songData.map (fun n => n.status)
      = [Status.missed] ∧
    (Window.animationLoop wPlaying 1100).score.misses = 1 := by
  refine ⟨?_, ?_, ?_⟩ <;>
    norm_num [Window.animationLoop, wPlaying, n0, elapsedTimeS, ratAbs,
      HIT_WINDOW_MS, stepNote, timeToSpawn, noteY, missesThisFrame, displayed,
      ANIMATION_AREA_HEIGHT, NOTE_FALL_SPEED_PPS] <;> simp

/-- **C4 amended** (Window discipline miss): for an `upcoming` note with
positive duration, the tick marks it missed as soon as the elapsed song time
strictly exceeds `note.time` (the note's leading edge passes the bottom of
the animation area) — not `note.time + 0.2 s` — so a note can be marked
missed while still inside the hit window; each such transition contributes
exactly 1 to `misses` (the tick adds the number of notes satisfying
`missesThisFrame`); a note whose start time has not been passed stays
`upcoming`. -/
theorem claim4_window_miss_amended (s : Window.WState) (now : ℚ) (i : ℕ)
    (hplay : s.gameState = .playing)
    (hi : i < s.songData.length)
    (hup : (s.songData.get ⟨i, hi⟩).status = .upcoming)
    (hdur : 0 < (s.songData.get ⟨i, hi⟩).duration) :
    (missesThisFrame (elapsedTimeS s now) (s.songData.get ⟨i, hi⟩) = true ↔
      (s.songData.get ⟨i, hi⟩).time < elapsedTimeS s now) ∧
    (∃ hi' : i < (Window.animationLoop s now).songData.length,
      ((s.songData.get ⟨i, hi⟩).time < elapsedTimeS s now →
        ((Window.animationLoop s now).songData.get ⟨i, hi'⟩).status
          = (if (s.songData.get ⟨i, hi⟩).time + (s.songData.get ⟨i, hi⟩).duration
                ≤ elapsedTimeS s now
             then Status.finished else .missed)) ∧
      (elapsedTimeS s now ≤ (s.songData.get ⟨i, hi⟩).time →
        ((Window.animationLoop s now).songData.get ⟨i, hi'⟩).status = .upcoming)) ∧
    (Window.animationLoop s now).score.misses
      = s.score.misses
        + ((s.songData.filter (missesThisFrame (elapsedTimeS s now))).length : ℤ) := by
  have hsd : (Window.animationLoop s now).songData
      = s.songData.map (stepNote (elapsedTimeS s now)) := by
    simp [Window.animationLoop, hplay]
  have hlen : i < (Window.animationLoop s now).songData.length := by
    rw [hsd, List.length_map]; exact hi
  have hget : (Window.animationLoop s now).songData.get ⟨i, hlen⟩
      = stepNote (elapsedTimeS s now) (s.songData.get ⟨i, hi⟩) := by
    simp [hsd]
  refine ⟨missesThisFrame_iff _ _ hup, ⟨hlen, ?_, ?_⟩, ?_⟩
  · intro hlt
    rw [hget]
    exact stepNote_upcoming_late _ _ hup hlt
  · intro hle
    rw [hget]
    exact stepNote_upcoming_early _ _ hup hle hdur
  · simp [Window.animationLoop, hplay]

/-- Witness for C4's amended theorem: the same tick at 1.1 s shows the note
scheduled at 1 s being missed inside its hit window. -/
theorem claim4_witness :
    (wPlaying.gameState = .playing ∧
      (wPlaying.songData.get ⟨0, by decide⟩).status = .upcoming ∧
      0 < (wPlaying.songData.get ⟨0, by decide⟩).duration) ∧
    ((missesThisFrame (elapsedTimeS wPlaying 1100) (wPlaying.songData.get ⟨0, by decide⟩) = true ↔
      (wPlaying.songData.get ⟨0, by decide⟩).time < elapsedTimeS wPlaying 1100) ∧
    (∃ hi' : 0 < (Window.animationLoop wPlaying 1100).songData.length,
      ((wPlaying.songData.get ⟨0, by decide⟩).time < elapsedTimeS wPlaying 1100 →
        ((Window.animationLoop wPlaying 1100).songData.get ⟨0, hi'⟩).status
          = (if (wPlaying.songData.get ⟨0, by decide⟩).time
                  + (wPlaying.songData.get ⟨0, by decide⟩).duration
                ≤ elapsedTimeS wPlaying 1100
             then Status.finished else .missed)) ∧
      (elapsedTimeS wPlaying 1100 ≤ (wPlaying.songData.get ⟨0, by decide⟩).time →
        ((Window.animationLoop wPlaying 1100).songData.get ⟨0, hi'⟩).status = .upcoming)) ∧
    (Window.animationLoop wPlaying 1100).score.misses
      = wPlaying.score.misses
        + ((wPlaying.songData.filter (missesThisFrame (elapsedTimeS wPlaying 1100))).length : ℤ)) :=
  ⟨⟨by decide, by decide, by decide⟩,
    claim4_window_miss_amended wPlaying 1100 0 (by decide) (by decide)
      (by decide) (by decide)⟩

/-- **C2** (Clock pause compensation): starting from a playing session,
`handlePlayControls` at `t1` pauses and at `t2` resumes; the elapsed song
time then read at `t3` equals the value frozen at `t1` plus the wall-clock
span `(t3 - t2)` (converted ms → s); elapsed is non-decreasing in the
wall clock while playing, and while paused `animationLoop` is a no-op, so
the observable elapsed time does not change. -/
theorem claim2_clock_pause_compensation (s : Window.WState)
    (t1 t2 t3 ta tb tnow : ℚ)
    (hplay : s.gameState = .playing) (h12 : t1 < t2) (h23 : t2 < t3)
    (hab : ta ≤ tb) :
    elapsedTimeS (handlePlayControls (handlePlayControls s t1) t2) t3
      = elapsedTimeS s t1 + (t3 - t2) / 1000 ∧
    (handlePlayControls s t1).gameState = .paused ∧
    (handlePlayControls (handlePlayControls s t1) t2).gameState = .playing ∧
    elapsedTimeS (handlePlayControls (handlePlayControls s t1) t2) ta
      ≤ elapsedTimeS (handlePlayControls (handlePlayControls s t1) t2) tb ∧
    Window.animationLoop (handlePlayControls s t1) tnow = handlePlayControls s t1 := by
  have e1 : handlePlayControls s t1
      = { s with gameState := .paused, pauseStartTime := t1 } := by
    simp [handlePlayControls, hplay]
  have e2 : handlePlayControls { s with gameState := .paused, pauseStartTime := t1 } t2
      = { s with gameState := .playing, pauseStartTime := t1
               , totalPausedTime := s.totalPausedTime + (t2 - t1) } := by
    simp [handlePlayControls]
  refine ⟨?_, ?_, ?_, ?_, ?_⟩
  · rw [e1, e2]; simp only [elapsedTimeS]; ring
  · rw [e1]
  · rw [e1, e2]
  · rw [e1, e2]; simp only [elapsedTimeS]; linarith
  · rw [e1]; simp [Window.animationLoop]

/-- Witness for C2 at a concrete pause/resume scenario. -/
theorem claim2_witness :
    (wPlaying.gameState = .playing ∧ (1000 : ℚ) < 6000 ∧ (6000 : ℚ) < 7000 ∧
      (7000 : ℚ) ≤ 8000) ∧
    (elapsedTimeS (handlePlayControls (handlePlayControls wPlaying 1000) 6000) 7000
        = elapsedTimeS wPlaying 1000 + ((7000 : ℚ) - 6000) / 1000 ∧
      (handlePlayControls wPlaying 1000).gameState = .paused ∧
      (handlePlayControls (handlePlayControls wPlaying 1000) 6000).gameState = .playing ∧
      elapsedTimeS (handlePlayControls (handlePlayControls wPlaying 1000) 6000) 7000
        ≤ elapsedTimeS (handlePlayControls (handlePlayControls wPlaying 1000) 6000) 8000 ∧
      Window.animationLoop (handlePlayControls wPlaying 1000) 42 = handlePlayControls wPlaying 1000) :=
  ⟨⟨by decide, by decide, by decide, by decide⟩,
    claim2_clock_pause_compensation wPlaying 1000 6000 7000 7000 8000 42
      (by decide) (by decide) (by decide) (by decide)⟩

/-- **C9** (Input no-ops): a note-on for a pitch already held and a note-off
for a pitch not held are complete no-ops; a note-on while the session is
`idle` or `finished` leaves the score, every note status, the held-note map
and the session state unchanged. All three handlers are total functions, so
none can throw. -/
theorem claim9_input_noops (sA sB sC : Window.WState) (pA pB pC : String)
    (tA tB tC : ℚ)
    (hA : setHas pA sA.heldKeys = true)
    (hB : setHas pB sB.heldKeys = false)
    (hC : sC.gameState = .idle ∨ sC.gameState = .finished) :
    Window.handleNoteOn sA pA tA = sA ∧
    Window.handleNoteOff sB pB tB = sB ∧
    ((Window.handleNoteOn sC pC tC).score = sC.score ∧
     (Window.handleNoteOn sC pC tC).songData = sC.songData ∧
     (Window.handleNoteOn sC pC tC).activelyHeld = sC.activelyHeld ∧
     (Window.handleNoteOn sC pC tC).gameState = sC.gameState) := by
  refine ⟨?_, ?_, ?_⟩
  · simp [Window.handleNoteOn, hA]
  · simp [Window.handleNoteOff, hB]
  · rcases hC with h | h <;>
      by_cases hh : setHas pC sC.heldKeys <;>
      simp [Window.handleNoteOn, hh, h]

/-- Witness for C9: concrete held/un-held/idle sessions. -/
theorem claim9_witness :
    (setHas "C4" wHolding.heldKeys = true ∧ setHas "D4" wPlaying.heldKeys = false ∧
      (wIdle.gameState = .idle ∨ wIdle.gameState = .finished)) ∧
    (Window.handleNoteOn wHolding "C4" 1500 = wHolding ∧
      Window.handleNoteOff wPlaying "D4" 1500 = wPlaying ∧
      ((Window.handleNoteOn wIdle "C4" 1500).score = wIdle.score ∧
       (Window.handleNoteOn wIdle "C4" 1500).songData = wIdle.songData ∧
       (Window.handleNoteOn wIdle "C4" 1500).activelyHeld = wIdle.activelyHeld ∧
       (Window.handleNoteOn wIdle "C4" 1500).gameState = wIdle.gameState)) :=
  ⟨⟨by decide, by decide, by decide⟩,
    claim9_input_noops wHolding wPlaying wIdle "C4" "D4" "C4" 1500 1500 1500
      (by decide) (by decide) (by decide)⟩

/-- **C6** (Window early release): with the key for `pitch` held, the session
playing, and `pitch` bound in `activelyHeldAssistedNotes` to the hit note
`hn`: a note-off strictly before `hn.time + hn.duration` marks the note
`early_release` and applies `hits - 1`, `mistakes + 1` in one score update
(`misses` untouched); a note-off at or after that instant changes neither the
score nor any note status. The map entry for `pitch` is removed either way. -/
theorem claim6_window_early_release (s : Window.WState) (pitch : String)
    (now : ℚ) (hn : SongNote)
    (hheld : setHas pitch s.heldKeys = true)
    (hplay : s.gameState = .playing)
    (hmap : mapGet pitch s.activelyHeld = some hn) :
    (elapsedTimeS s now < hn.time + hn.duration →
      (Window.handleNoteOff s pitch now).score.hits = s.score.hits - 1 ∧
      (Window.handleNoteOff s pitch now).score.mistakes = s.score.mistakes + 1 ∧
      (Window.handleNoteOff s pitch now).score.misses = s.score.misses ∧
      (Window.handleNoteOff s pitch now).songData
        = s.songData.map (fun n =>
            if n.id = hn.id then { n with status := .earlyRelease } else n) ∧
      (Window.handleNoteOff s pitch now).activelyHeld = mapDel pitch s.activelyHeld) ∧
    (hn.time + hn.duration ≤ elapsedTimeS s now →
      (Window.handleNoteOff s pitch now).score = s.score ∧
      (Window.handleNoteOff s pitch now).songData = s.songData ∧
      (Window.handleNoteOff s pitch now).activelyHeld = mapDel pitch s.activelyHeld) := by
  constructor
  · intro hearly
    simp only [Window.handleNoteOff, hheld, Bool.not_true, hplay]
    simp only [elapsedTimeS] at hearly ⊢
    simp [hmap, hearly]
  · intro hlate
    have hnotlt : ¬ elapsedTimeS s now < hn.time + hn.duration := not_lt.mpr hlate
    simp only [Window.handleNoteOff, hheld, Bool.not_true, hplay]
    simp only [elapsedTimeS] at hnotlt ⊢
    simp [hmap, hnotlt]

/-- Witness for C6: releasing the held C4 at 1.5 s, before its end (2 s),
and checking both branches of the theorem. -/
theorem claim6_witness :
    (setHas "C4" wHolding.heldKeys = true ∧ wHolding.gameState = .playing ∧
      mapGet "C4" wHolding.activelyHeld = some n0hit) ∧
    ((elapsedTimeS wHolding 1500 < n0hit.time + n0hit.duration →
      (Window.handleNoteOff wHolding "C4" 1500).score.hits = wHolding.score.hits - 1 ∧
      (Window.handleNoteOff wHolding "C4" 1500).score.mistakes = wHolding.score.mistakes + 1 ∧
      (Window.handleNoteOff wHolding "C4" 1500).score.misses = wHolding.score.misses ∧
      (Window.handleNoteOff wHolding "C4" 1500).songData
        = wHolding.songData.map (fun n =>
            if n.id = n0hit.id then { n with status := .earlyRelease } else n) ∧
      (Window.handleNoteOff wHolding "C4" 1500).activelyHeld = mapDel "C4" wHolding.activelyHeld) ∧
    (n0hit.time + n0hit.duration ≤ elapsedTimeS wHolding 1500 →
      (Window.handleNoteOff wHolding "C4" 1500).score = wHolding.score ∧
      (Window.handleNoteOff wHolding "C4" 1500).songData = wHolding.songData ∧
      (Window.handleNoteOff wHolding "C4" 1500).activelyHeld = mapDel "C4" wHolding.activelyHeld)) :=
  ⟨⟨by decide, by decide, by decide⟩,
    claim6_window_early_release wHolding "C4" 1500 n0hit
      (by decide) (by decide) (by decide)⟩

end PianoVisualizer

namespace PianoVisualizer

open Window Hold Samples

/-- A note that has not yet scrolled fully past (`¬ time + duration ≤ e`)
keeps its status through the display step. -/
theorem hStepNote_status (e : ℚ) (n : SongNote)
    (hne : ¬ n.time + n.duration ≤ e) :
    (hStepNote e n).status = n.status := by
  have hfin : ¬ ANIMATION_AREA_HEIGHT ≤ hNoteY e n - n.duration * NOTE_FALL_SPEED_PPS := by
    simp only [hNoteY, ANIMATION_AREA_HEIGHT, NOTE_FALL_SPEED_PPS]
    intro hc
    exact hne (by nlinarith)
  by_cases hnf : n.status = .finished
  · simp [hStepNote, hnf]
  · by_cases hs : hSpawned e n = true <;> simp [hStepNote, hnf, hs, hfin]

/-- Evaluation of the hold-variant `animationLoop` on a gate-opening frame:
while playing, once the advanced clock reaches the first upcoming note's
start time, the clock is clamped to it, the equal-start chord becomes the
wait set, and the session enters `waitingForInput`; the display is computed
at the pre-clamp elapsed time. -/
theorem animationLoop_gate (s : Hold.HState) (now : ℚ) (u : SongNote)
    (rest : List SongNote)
    (hplay : s.gameState = .playing)
    (hup : s.songData.filter (fun n => decide (n.status = .upcoming)) = u :: rest)
    (hreach : u.time ≤ s.songTime + hDelta s now) :
    Hold.animationLoop s now =
      { s with
          lastTimestamp := now
          songTime := u.time
          songData := (s.songData.map (gateNote u.time)).map
            (hStepNote (s.songTime + hDelta s now))
          waitingNotes :=
            ((u :: rest).filter (fun n => decide (n.time = u.time))).map (fun n => n.id)
          gameState := .waitingForInput
          visualNotes := ((s.songData.map (gateNote u.time)).map
            (hStepNote (s.songTime + hDelta s now))).filter
              (hDisplayed (s.songTime + hDelta s now)) } := by
  simp [Hold.animationLoop, hplay, hup, hreach]

/-- Evaluation of the hold-variant `animationLoop` while `waitingForInput`:
the clock is frozen, expired holds are resolved to `hit`, and the display is
computed at the frozen song time. -/
theorem animationLoop_waiting (s : Hold.HState) (now : ℚ)
    (hw : s.gameState = .waitingForInput) :
    Hold.animationLoop s now =
      { s with
          lastTimestamp := now
          songData := (s.songData.map (holdCheckNote now s.activelyHeld)).map
            (hStepNote s.songTime)
          visualNotes := ((s.songData.map (holdCheckNote now s.activelyHeld)).map
            (hStepNote s.songTime)).filter (hDisplayed s.songTime)
          gameState :=
            if (((s.songData.map (holdCheckNote now s.activelyHeld)).filter
                    (fun n => decide (n.status = .upcoming))).isEmpty
                 && s.waitingNotes.isEmpty
                 && (((s.songData.map (holdCheckNote now s.activelyHeld)).map
                      (hStepNote s.songTime)).filter (hDisplayed s.songTime)).isEmpty : Bool)
            then .finished else .waitingForInput } := by
  simp [Hold.animationLoop, hw, Hold.holdCheck]

/-- **C3** (Hold discipline chord gate): (i) on the tick where the advanced
clock reaches the start time of the head `u` of the upcoming list (the
earliest upcoming start time, by sortedness), the clock is clamped to
`u.time`, every upcoming note sharing exactly that start time becomes
`waiting` (the chord gate), the wait set records exactly those notes, and
the session enters `waitingForInput`; (ii) while `waitingForInput` a tick
never advances the song time; (iii) a note-off resolving the last wait-set
note (status `hit`) returns the session to `playing`, crediting the hit. -/
theorem claim3_hold_chord_gate (sA : Hold.HState) (now : ℚ) (u : SongNote)
    (rest : List SongNote) (sB : Hold.HState) (nowB : ℚ)
    (sC : Hold.HState) (pitch : String) (nowC : ℚ) (nid : ℕ) (hnote : SongNote)
    (hplay : sA.gameState = .playing)
    (hup : sA.songData.filter (fun n => decide (n.status = .upcoming)) = u :: rest)
    (hreach : u.time ≤ sA.songTime + hDelta sA now)
    (hsort : sA.songData.Pairwise (fun a b => a.time ≤ b.time))
    (hover : ∀ n ∈ sA.songData, n.status = .upcoming → n.time = u.time →
      ¬ n.time + n.duration ≤ sA.songTime + hDelta sA now)
    (hwaitB : sB.gameState = .waitingForInput)
    (hheldC : setHas pitch sC.heldKeys = true)
    (hmapC : mapGet pitch sC.activelyHeld = some nid)
    (hfindC : sC.songData.find? (fun n => decide (n.id = nid)) = some hnote)
    (hhitC : hnote.status = .hit)
    (hwaitC : sC.gameState = .waitingForInput)
    (hlastC : sC.waitingNotes.filter (fun i => decide (¬ i = nid)) = []) :
    ((Hold.animationLoop sA now).songTime = u.time ∧
     (Hold.animationLoop sA now).gameState = .waitingForInput ∧
     (Hold.animationLoop sA now).waitingNotes
       = ((u :: rest).filter (fun n => decide (n.time = u.time))).map (fun n => n.id) ∧
     (∀ i, (hi : i < sA.songData.length) →
       (sA.songData.get ⟨i, hi⟩).status = .upcoming →
       (sA.songData.get ⟨i, hi⟩).time = u.time →
       ∃ hi' : i < (Hold.animationLoop sA now).songData.length,
         ((Hold.animationLoop sA now).songData.get ⟨i, hi'⟩).status = .waiting) ∧
     (∀ m ∈ u :: rest, u.time ≤ m.time)) ∧
    ((Hold.animationLoop sB nowB).songTime = sB.songTime) ∧
    ((Hold.handleNoteOff sC pitch nowC).gameState = .playing ∧
     (Hold.handleNoteOff sC pitch nowC).waitingNotes = [] ∧
     (Hold.handleNoteOff sC pitch nowC).score.hits = sC.score.hits + 1 ∧
     (Hold.handleNoteOff sC pitch nowC).score.mistakes = sC.score.mistakes) := by
  have hA := animationLoop_gate sA now u rest hplay hup hreach
  refine ⟨⟨?_, ?_, ?_, ?_, ?_⟩, ?_, ?_⟩
  · rw [hA]
  · rw [hA]
  · rw [hA]
  · intro i hi hupi htimei
    simp only [List.get_eq_getElem] at hupi htimei
    have hi' : i < (Hold.animationLoop sA now).songData.length := by
      rw [hA]; simpa using hi
    refine ⟨hi', ?_⟩
    have hmem : sA.songData[i] ∈ sA.songData := List.getElem_mem _
    have hnover := hover _ hmem hupi htimei
    have hEq : (Hold.animationLoop sA now).songData.get ⟨i, hi'⟩
        = hStepNote (sA.songTime + hDelta sA now)
            (gateNote u.time (sA.songData[i])) := by
      simp [hA]
    have hg : gateNote u.time (sA.songData[i])
        = { sA.songData[i] with status := .waiting } := by
      simp [gateNote, hupi, htimei]
    rw [hEq, hg, hStepNote_status _ _ (by simpa using hnover)]
  · have : (u :: rest).Pairwise (fun a b => a.time ≤ b.time) := by
      rw [← hup]; exact hsort.filter _
    intro m hm
    rcases List.mem_cons.mp hm with rfl | hm'
    · exact le_refl _
    · exact (List.pairwise_cons.mp this).1 m hm'
  · rw [animationLoop_waiting sB nowB hwaitB]
  · have hlast' : ∀ x ∈ sC.waitingNotes, x = nid := by
      intro x hx
      simpa using List.filter_eq_nil_iff.mp hlastC x hx
    simp only [Hold.handleNoteOff, hheldC, Bool.not_true, if_false]
    simp [hmapC, hfindC, hhitC, hlastC, hwaitC, hlast']
    exact hlast'

/-- Witness for C3: the gate opening at 1 s in `hGateState` (tick at wall
clock 1020 ms), the frozen clock of `hWaiting`, and the unblocking release
of the hit note in `hHitHeld`. -/
theorem claim3_witness :
    (hGateState.gameState = .playing ∧
      hGateState.songData.filter (fun n => decide (n.status = .upcoming))
        = [n0, hLate] ∧
      n0.time ≤ hGateState.songTime + hDelta hGateState 1020 ∧
      hWaiting.gameState = .waitingForInput ∧
      setHas "C4" hHitHeld.heldKeys = true ∧
      mapGet "C4" hHitHeld.activelyHeld = some 0 ∧
      hHitHeld.songData.find? (fun n => decide (n.id = 0)) = some n0hitHeld ∧
      n0hitHeld.status = .hit ∧
      hHitHeld.waitingNotes.filter (fun i => decide (¬ i = 0)) = []) ∧
    ((Hold.animationLoop hGateState 1020).songTime = n0.time ∧
      (Hold.animationLoop hGateState 1020).gameState = .waitingForInput ∧
      (Hold.animationLoop hGateState 1020).waitingNotes
        = (([n0, hLate] : List SongNote).filter
            (fun n => decide (n.time = n0.time))).map (fun n => n.id) ∧
      (∀ i, (hi : i < hGateState.songData.length) →
        (hGateState.songData.get ⟨i, hi⟩).status = .upcoming →
        (hGateState.songData.get ⟨i, hi⟩).time = n0.time →
        ∃ hi' : i < (Hold.animationLoop hGateState 1020).songData.length,
          ((Hold.animationLoop hGateState 1020).songData.get ⟨i, hi'⟩).status = .waiting) ∧
      (∀ m ∈ ([n0, hLate] : List SongNote), n0.time ≤ m.time)) ∧
    ((Hold.animationLoop hWaiting 999).songTime = hWaiting.songTime) ∧
    ((Hold.handleNoteOff hHitHeld "C4" 2500).gameState = .playing ∧
     (Hold.handleNoteOff hHitHeld "C4" 2500).waitingNotes = [] ∧
     (Hold.handleNoteOff hHitHeld "C4" 2500).score.hits = hHitHeld.score.hits + 1 ∧
     (Hold.handleNoteOff hHitHeld "C4" 2500).score.mistakes = hHitHeld.score.mistakes) :=
  ⟨⟨by decide, by rfl,
      by norm_num [hGateState, hDelta, n0],
      by rfl, by decide, by rfl, by decide, by rfl, by rfl⟩,
    claim3_hold_chord_gate hGateState 1020 n0 [hLate] hWaiting 999 hHitHeld "C4" 2500 0
      n0hitHeld (by decide) (by rfl)
      (by norm_num [hGateState, hDelta, n0])
      (by norm_num [hGateState, n0, hLate, List.pairwise_cons])
      (by intro n hn h1 h2
          fin_cases hn <;> norm_num [hGateState, hDelta, n0, hLate] at h2 ⊢)
      (by rfl) (by decide) (by rfl) (by decide) (by rfl) (by decide)
      (by rfl)⟩

/-- Deleting a key from the held map removes its binding. -/
theorem mapGet_mapDel {α : Type} (k : String) (m : List (String × α)) :
    mapGet k (mapDel k m) = none := by
  simp only [mapGet, mapDel, Option.map_eq_none', List.find?_eq_none, List.mem_filter,
    decide_eq_true_eq, and_imp]
  intro x _ hx
  simpa using hx

/-- **C5** (Hold discipline hold-and-rollback): (i) on a `waitingForInput`
tick, a `holding` note tracked in the held map whose press has lasted at
least its duration becomes `hit`; (ii) one whose press is still shorter than
its duration stays `holding`; (iii) releasing a still-`holding` note records
exactly one mistake, leaves `hits` unchanged (no hit credit), rolls the note
back to `waiting` and clears its `pressStartTime`, removing it from the held
map. -/
theorem claim5_hold_and_rollback
    (sA : Hold.HState) (now : ℚ) (i : ℕ) (t0 : ℚ)
    (sB : Hold.HState) (nowB : ℚ) (j : ℕ) (t1 : ℚ)
    (sC : Hold.HState) (pitch : String) (nowC : ℚ) (nid : ℕ) (hnote : SongNote)
    (hwA : sA.gameState = .waitingForInput)
    (hiA : i < sA.songData.length)
    (hholdA : (sA.songData.get ⟨i, hiA⟩).status = .holding)
    (hpressA : (sA.songData.get ⟨i, hiA⟩).pressStartTime = some t0)
    (hmapA : sA.activelyHeld.any
      (fun p => decide (p.2 = (sA.songData.get ⟨i, hiA⟩).id)) = true)
    (hlongA : (sA.songData.get ⟨i, hiA⟩).duration ≤ (now - t0) / 1000)
    (hoverA : ¬ (sA.songData.get ⟨i, hiA⟩).time + (sA.songData.get ⟨i, hiA⟩).duration
      ≤ sA.songTime)
    (hwB : sB.gameState = .waitingForInput)
    (hiB : j < sB.songData.length)
    (hholdB : (sB.songData.get ⟨j, hiB⟩).status = .holding)
    (hpressB : (sB.songData.get ⟨j, hiB⟩).pressStartTime = some t1)
    (hshortB : (nowB - t1) / 1000 < (sB.songData.get ⟨j, hiB⟩).duration)
    (hoverB : ¬ (sB.songData.get ⟨j, hiB⟩).time + (sB.songData.get ⟨j, hiB⟩).duration
      ≤ sB.songTime)
    (hheldC : setHas pitch sC.heldKeys = true)
    (hmapC : mapGet pitch sC.activelyHeld = some nid)
    (hfindC : sC.songData.find? (fun n => decide (n.id = nid)) = some hnote)
    (hholdC : hnote.status = .holding) :
    (∃ hi' : i < (Hold.animationLoop sA now).songData.length,
       ((Hold.animationLoop sA now).songData.get ⟨i, hi'⟩).status = .hit) ∧
    (∃ hj' : j < (Hold.animationLoop sB nowB).songData.length,
       ((Hold.animationLoop sB nowB).songData.get ⟨j, hj'⟩).status = .holding) ∧
    ((Hold.handleNoteOff sC pitch nowC).score.mistakes = sC.score.mistakes + 1 ∧
     (Hold.handleNoteOff sC pitch nowC).score.hits = sC.score.hits ∧
     (∀ k, (hk : k < sC.songData.length) → (sC.songData.get ⟨k, hk⟩).id = nid →
        ∃ hk' : k < (Hold.handleNoteOff sC pitch nowC).songData.length,
          ((Hold.handleNoteOff sC pitch nowC).songData.get ⟨k, hk'⟩).status = .waiting ∧
          ((Hold.handleNoteOff sC pitch nowC).songData.get ⟨k, hk'⟩).pressStartTime
            = none) ∧
     mapGet pitch (Hold.handleNoteOff sC pitch nowC).activelyHeld = none) := by
  simp only [List.get_eq_getElem] at hholdA hpressA hmapA hlongA hoverA
  simp only [List.get_eq_getElem] at hholdB hpressB hshortB hoverB
  refine ⟨?_, ?_, ?_⟩
  · rw [animationLoop_waiting sA now hwA]
    have hchk : holdCheckNote now sA.activelyHeld (sA.songData[i])
        = { sA.songData[i] with status := .hit } := by
      simp [holdCheckNote, holdCond, hmapA, hholdA, hpressA, hlongA]
    refine ⟨by simpa using hiA, ?_⟩
    simp only [List.get_eq_getElem, List.getElem_map, hchk]
    rw [hStepNote_status _ _ (by simpa using hoverA)]
  · rw [animationLoop_waiting sB nowB hwB]
    have hchk : holdCheckNote nowB sB.activelyHeld (sB.songData[j])
        = sB.songData[j] := by
      simp [holdCheckNote, holdCond, hholdB, hpressB, not_le.mpr hshortB]
    refine ⟨by simpa using hiB, ?_⟩
    simp only [List.get_eq_getElem, List.getElem_map, hchk]
    rw [hStepNote_status _ _ (by simpa using hoverB)]
    exact hholdB
  · have hnothit : ¬ hnote.status = .hit := by simp [hholdC]
    refine ⟨?_, ?_, ?_, ?_⟩ <;>
      simp only [Hold.handleNoteOff, hheldC, Bool.not_true, if_false] <;>
      (try simp [hmapC, hfindC, hholdC, hnothit, mapGet_mapDel])
    intro k hk hid
    refine ⟨by simpa using hk, ?_⟩
    simp [Hold.handleNoteOff, hheldC, hmapC, hfindC, hholdC, hnothit, hid,
      List.get_eq_getElem]

/-- Witness for C5: in `hHolding` the C4 note (duration 1 s, pressed at
1000 ms) is hit by a tick at 2100 ms, still holding at a tick at 1500 ms,
and rolled back to waiting with one mistake when released early. -/
theorem claim5_witness :
    (hHolding.gameState = .waitingForInput ∧
      (hHolding.songData.get ⟨0, by decide⟩).status = .holding ∧
      (hHolding.songData.get ⟨0, by decide⟩).pressStartTime = some 1000 ∧
      hHolding.activelyHeld.any
        (fun p => decide (p.2 = (hHolding.songData.get ⟨0, by decide⟩).id)) = true ∧
      (hHolding.songData.get ⟨0, by decide⟩).duration ≤ ((2100 : ℚ) - 1000) / 1000 ∧
      ((1500 : ℚ) - 1000) / 1000 < (hHolding.songData.get ⟨0, by decide⟩).duration ∧
      setHas "C4" hHolding.heldKeys = true ∧
      mapGet "C4" hHolding.activelyHeld = some 0 ∧
      hHolding.songData.find? (fun n => decide (n.id = 0)) = some n0holding ∧
      n0holding.status = .holding) ∧
    ((∃ hi' : 0 < (Hold.animationLoop hHolding 2100).songData.length,
       ((Hold.animationLoop hHolding 2100).songData.get ⟨0, hi'⟩).status = .hit) ∧
    (∃ hj' : 0 < (Hold.animationLoop hHolding 1500).songData.length,
       ((Hold.animationLoop hHolding 1500).songData.get ⟨0, hj'⟩).status = .holding) ∧
    ((Hold.handleNoteOff hHolding "C4" 2050).score.mistakes = hHolding.score.mistakes + 1 ∧
     (Hold.handleNoteOff hHolding "C4" 2050).score.hits = hHolding.score.hits ∧
     (∀ k, (hk : k < hHolding.songData.length) →
        (hHolding.songData.get ⟨k, hk⟩).id = 0 →
        ∃ hk' : k < (Hold.handleNoteOff hHolding "C4" 2050).songData.length,
          ((Hold.handleNoteOff hHolding "C4" 2050).songData.get ⟨k, hk'⟩).status = .waiting ∧
          ((Hold.handleNoteOff hHolding "C4" 2050).songData.get ⟨k, hk'⟩).pressStartTime
            = none) ∧
     mapGet "C4" (Hold.handleNoteOff hHolding "C4" 2050).activelyHeld = none)) :=
  ⟨⟨by rfl, by decide, by rfl, by decide,
      by norm_num [hHolding, n0holding, n0],
      by norm_num [hHolding, n0holding, n0],
      by rfl, by decide, by rfl, by rfl⟩,
    claim5_hold_and_rollback hHolding 2100 0 1000 hHolding 1500 0 1000 hHolding
      "C4" 2050 0 n0holding (by rfl) (by decide) (by rfl) (by decide)
      (by rfl) (by norm_num [hHolding, n0holding, n0])
      (by norm_num [hHolding, n0holding, n0])
      (by rfl) (by decide) (by rfl) (by decide)
      (by norm_num [hHolding, n0holding, n0])
      (by norm_num [hHolding, n0holding, n0])
      (by rfl) (by decide) (by rfl) (by rfl)⟩

/-- `stepNote` never changes a note's timing identity, only `status`/`y`. -/
theorem stepNote_time (e : ℚ) (n : SongNote) : (stepNote e n).time = n.time := by
  simp only [stepNote]
  split_ifs <;> rfl

theorem stepNote_duration (e : ℚ) (n : SongNote) :
    (stepNote e n).duration = n.duration := by
  simp only [stepNote]
  split_ifs <;> rfl

/-- The per-note tick body of the window variant is idempotent at a fixed
elapsed time. -/
theorem stepNote_idem (e : ℚ) (n : SongNote) :
    stepNote e (stepNote e n) = stepNote e n := by
  by_cases h1 : n.status = .finished
  · simp [stepNote, h1]
  · by_cases h2 : timeToSpawn n ≤ e
    · by_cases h4 : ANIMATION_AREA_HEIGHT ≤ noteY e n - n.duration * NOTE_FALL_SPEED_PPS
      · have hr : stepNote e n = { n with y := noteY e n, status := .finished } := by
          by_cases h3 : ANIMATION_AREA_HEIGHT < noteY e n ∧ n.status = .upcoming <;>
            simp [stepNote, h1, h2, h3, h4]
        rw [hr]
        simp [stepNote]
      · by_cases h3 : ANIMATION_AREA_HEIGHT < noteY e n ∧ n.status = .upcoming
        · have hr : stepNote e n = { n with y := noteY e n, status := .missed } := by
            simp [stepNote, h1, h2, h3, h4]
          rw [hr]
          simp only [stepNote, timeToSpawn, noteY] at h2 h4 ⊢
          simp [h2, h4]
        · have hr : stepNote e n = { n with y := noteY e n } := by
            simp [stepNote, h1, h2, h3, h4]
          rw [hr]
          simp only [stepNote, timeToSpawn, noteY] at h1 h2 h3 h4 ⊢
          simp [h1, h2, h3, h4]
    · have hr : stepNote e n = n := by simp [stepNote, h1, h2]
      rw [hr, hr]

/-- A note that has already been processed by this frame's tick cannot be
counted missed a second time at the same elapsed time. -/
theorem missesThisFrame_stepNote (e : ℚ) (n : SongNote) :
    missesThisFrame e (stepNote e n) = false := by
  by_cases h1 : n.status = .finished
  · simp [stepNote, missesThisFrame, h1]
  · by_cases h2 : timeToSpawn n ≤ e
    · by_cases h4 : ANIMATION_AREA_HEIGHT ≤ noteY e n - n.duration * NOTE_FALL_SPEED_PPS
      · have hr : stepNote e n = { n with y := noteY e n, status := .finished } := by
          by_cases h3 : ANIMATION_AREA_HEIGHT < noteY e n ∧ n.status = .upcoming <;>
            simp [stepNote, h1, h2, h3, h4]
        rw [hr]
        simp [missesThisFrame]
      · by_cases h3 : ANIMATION_AREA_HEIGHT < noteY e n ∧ n.status = .upcoming
        · have hr : stepNote e n = { n with y := noteY e n, status := .missed } := by
            simp [stepNote, h1, h2, h3, h4]
          rw [hr]
          simp [missesThisFrame]
        · have hr : stepNote e n = { n with y := noteY e n } := by
            simp [stepNote, h1, h2, h3, h4]
          rw [hr]
          by_cases hup : n.status = .upcoming
          · simp only [hup, and_true, not_lt] at h3
            simp only [missesThisFrame, timeToSpawn, noteY] at h3 ⊢
            simp [hup]
            intro _
            exact h3
          · simp [missesThisFrame, hup]
    · have hr : stepNote e n = n := by simp [stepNote, h1, h2]
      rw [hr]
      simp [missesThisFrame, h2]

/-- Evaluation of the window-variant tick while playing. -/
theorem animationLoop_playing_window (s : Window.WState) (now : ℚ)
    (hp : s.gameState = .playing) :
    Window.animationLoop s now =
      { s with
          songData := s.songData.map (stepNote (elapsedTimeS s now))
          score := { s.score with misses := s.score.misses
            + ((s.songData.filter (missesThisFrame (elapsedTimeS s now))).length : ℤ) }
          visualNotes := (s.songData.map (stepNote (elapsedTimeS s now))).filter
            (displayed (elapsedTimeS s now))
          gameState :=
            if ((!(s.songData.map (stepNote (elapsedTimeS s now))).isEmpty
                && (s.songData.map (stepNote (elapsedTimeS s now))).all
                     fun n => decide (n.status = .finished)) : Bool)
            then .finished else s.gameState } := by
  simp [Window.animationLoop, hp]

/-- The window-variant tick is a no-op unless the session is playing. -/
theorem animationLoop_not_playing_window (s : Window.WState) (now : ℚ)
    (h : ¬ s.gameState = .playing) : Window.animationLoop s now = s := by
  simp [Window.animationLoop, h]

/-- The window-variant tick is idempotent: a second invocation at the same
timestamp reproduces the state exactly (same statuses, same visible set,
no score change). -/
theorem animationLoop_idem_window (s : Window.WState) (now : ℚ) :
    Window.animationLoop (Window.animationLoop s now) now
      = Window.animationLoop s now := by
  by_cases hp : s.gameState = .playing
  · have h1 := animationLoop_playing_window s now hp
    by_cases hf : ¬ s.songData = [] ∧ ∀ x ∈ s.songData,
        (stepNote (elapsedTimeS s now) x).status = .finished
    · have hfin : ¬ (Window.animationLoop s now).gameState = .playing := by
        rw [h1]
        simp [hf.1]
        rw [if_pos hf.2]
        simp
      exact animationLoop_not_playing_window _ now hfin
    · have hg : (Window.animationLoop s now).gameState = .playing := by
        rw [h1]
        simp [hf, hp]
      have he : elapsedTimeS (Window.animationLoop s now) now = elapsedTimeS s now := by
        rw [h1]
        rfl
      have hXs : (Window.animationLoop s now).songData
          = s.songData.map (stepNote (elapsedTimeS s now)) := by
        rw [h1]
      have ha : (s.songData.map (stepNote (elapsedTimeS s now))).map
            (stepNote (elapsedTimeS s now))
          = s.songData.map (stepNote (elapsedTimeS s now)) := by
        rw [List.map_map]
        exact List.map_congr_left (fun a _ => stepNote_idem _ a)
      have hb : (s.songData.map (stepNote (elapsedTimeS s now))).filter
            (missesThisFrame (elapsedTimeS s now)) = [] := by
        refine List.filter_eq_nil_iff.mpr ?_
        intro a ha'
        obtain ⟨b, -, rfl⟩ := List.mem_map.mp ha'
        simp [missesThisFrame_stepNote]
      have h2 := animationLoop_playing_window (Window.animationLoop s now) now hg
      rw [h2, he, hXs, ha, hb]
      have hXv : (Window.animationLoop s now).visualNotes
          = (s.songData.map (stepNote (elapsedTimeS s now))).filter
              (displayed (elapsedTimeS s now)) := by
        rw [h1]
      have hXsc : (Window.animationLoop s now).score.misses
          = s.score.misses
            + ((s.songData.filter (missesThisFrame (elapsedTimeS s now))).length : ℤ) := by
        rw [h1]
      rcases hW : Window.animationLoop s now with ⟨g, sd, hk, ah, sc, gst, pst, tpt, vn⟩
      simp only [hW] at hXs hXv hg hXsc ⊢
      subst hXs hXv hg
      simp [hf, ← hXsc]
  · have h0 : Window.animationLoop s now = s := animationLoop_not_playing_window s now hp
    rw [h0, h0]

/-- The hold-variant display step only touches `status`/`y`. -/
theorem hStepNote_fields (e : ℚ) (n : SongNote) :
    (hStepNote e n).id = n.id ∧ (hStepNote e n).name = n.name ∧
    (hStepNote e n).time = n.time ∧ (hStepNote e n).duration = n.duration ∧
    (hStepNote e n).pressStartTime = n.pressStartTime := by
  simp only [hStepNote]
  split_ifs <;> simp

/-- The display step either keeps a note's status or finishes it. -/
theorem hStepNote_status_cases (e : ℚ) (n : SongNote) :
    (hStepNote e n).status = n.status ∨ (hStepNote e n).status = .finished := by
  simp only [hStepNote]
  split_ifs <;> simp

/-- The hold-variant display step is idempotent at a fixed elapsed time. -/
theorem hStepNote_idem (e : ℚ) (n : SongNote) :
    hStepNote e (hStepNote e n) = hStepNote e n := by
  by_cases h1 : n.status = .finished
  · simp [hStepNote, h1]
  · by_cases h2 : hSpawned e n = true
    · by_cases h3 : ANIMATION_AREA_HEIGHT ≤ hNoteY e n - n.duration * NOTE_FALL_SPEED_PPS
      · have hr : hStepNote e n = { n with y := hNoteY e n, status := .finished } := by
          simp [hStepNote, h1, h2, h3]
        rw [hr]
        simp [hStepNote]
      · have hr : hStepNote e n = { n with y := hNoteY e n } := by
          simp [hStepNote, h1, h2, h3]
        rw [hr]
        simp only [hStepNote, hSpawned, hNoteY] at h1 h2 h3 ⊢
        simp [h1, h2, h3]
    · have hr : hStepNote e n = n := by simp [hStepNote, h1, h2]
      rw [hr, hr]

/-- `holdCond` only inspects `id`, `status`, `pressStartTime` and `duration`. -/
theorem holdCond_congr (now : ℚ) (held : List (String × ℕ)) (m n : SongNote)
    (hid : m.id = n.id) (hst : m.status = n.status)
    (hpr : m.pressStartTime = n.pressStartTime) (hdu : m.duration = n.duration) :
    holdCond now held m = holdCond now held n := by
  simp only [holdCond, hid, hst, hpr, hdu]

/-- Applying the expired-hold check after a display step that followed a
previous check changes nothing: the check is stable across the frame. -/
theorem holdCheckNote_step_idem (now e : ℚ) (held : List (String × ℕ))
    (n : SongNote) :
    holdCheckNote now held (hStepNote e (holdCheckNote now held n))
      = hStepNote e (holdCheckNote now held n) := by
  by_cases hcond : holdCond now held n = true
  · have hc : holdCheckNote now held n = { n with status := .hit } := by
      simp [holdCheckNote, hcond]
    rw [hc]
    rcases hStepNote_status_cases e { n with status := .hit } with hs | hs <;>
      · have hfalse : holdCond now held (hStepNote e { n with status := .hit }) = false := by
          simp [holdCond, hs]
        simp [holdCheckNote, hfalse]
  · have hc : holdCheckNote now held n = n := by
      simp [holdCheckNote, hcond]
    rw [hc]
    rcases hStepNote_status_cases e n with hs | hs
    · have hfalse : holdCond now held (hStepNote e n) = false := by
        rw [holdCond_congr now held (hStepNote e n) n (hStepNote_fields e n).1
          hs (hStepNote_fields e n).2.2.2.2 (hStepNote_fields e n).2.2.2.1]
        simpa using hcond
      simp [holdCheckNote, hfalse]
    · have hfalse : holdCond now held (hStepNote e n) = false := by
        simp [holdCond, hs]
      simp [holdCheckNote, hfalse]

/-- The expired-hold check keeps `upcoming` exactly `upcoming`. -/
theorem holdCheckNote_upcoming (now : ℚ) (held : List (String × ℕ)) (n : SongNote) :
    ((holdCheckNote now held n).status = .upcoming ↔ n.status = .upcoming) := by
  simp only [holdCheckNote]
  split_ifs with hc
  · simp only [holdCond, Bool.and_eq_true, decide_eq_true_eq] at hc
    constructor
    · intro h
      exact absurd h (by simp)
    · intro h
      rw [hc.1.2] at h
      exact absurd h (by simp)
  · exact Iff.rfl

/-- The expired-hold check only touches `status`. -/
theorem holdCheckNote_fields (now : ℚ) (held : List (String × ℕ)) (n : SongNote) :
    (holdCheckNote now held n).id = n.id ∧ (holdCheckNote now held n).name = n.name ∧
    (holdCheckNote now held n).time = n.time ∧
    (holdCheckNote now held n).duration = n.duration ∧
    (holdCheckNote now held n).pressStartTime = n.pressStartTime := by
  simp only [holdCheckNote]
  split_ifs <;> simp

/-- The hold-variant tick is a no-op (except for the frame-clock bookkeeping)
outside `playing`/`waitingForInput`. -/
theorem animationLoop_else_hold (s : Hold.HState) (now : ℚ)
    (h1 : ¬ s.gameState = .playing) (h2 : ¬ s.gameState = .waitingForInput) :
    Hold.animationLoop s now = { s with lastTimestamp := now } := by
  simp [Hold.animationLoop, h1, h2]

/-- A tick whose wall-clock timestamp equals the stored `lastTimestamp`
contributes a zero clock delta. -/
theorem hDelta_now (s : Hold.HState) (now : ℚ) (h : s.lastTimestamp = now) :
    hDelta s now = 0 := by
  simp only [hDelta, h]
  split_ifs <;> simp

/-- Evaluation of the hold-variant tick while playing with no note due yet
(either no upcoming note, or the first upcoming note still ahead of the
advanced clock). -/
theorem animationLoop_playing_hold (s : Hold.HState) (now : ℚ)
    (hp : s.gameState = .playing)
    (hng : Hold.gateFires s now = false) :
    Hold.animationLoop s now =
      { s with
          lastTimestamp := now
          songTime := s.songTime + hDelta s now
          songData := s.songData.map (hStepNote (s.songTime + hDelta s now))
          visualNotes := (s.songData.map (hStepNote (s.songTime + hDelta s now))).filter
            (hDisplayed (s.songTime + hDelta s now))
          gameState :=
            if (((s.songData.filter (fun n => decide (n.status = .upcoming))).isEmpty
                && s.waitingNotes.isEmpty
                && ((s.songData.map (hStepNote (s.songTime + hDelta s now))).filter
                     (hDisplayed (s.songTime + hDelta s now))).isEmpty) : Bool)
            then .finished else s.gameState } := by
  rcases hu : s.songData.filter (fun n => decide (n.status = .upcoming)) with _ | ⟨u, rest⟩
  · simp [Hold.animationLoop, hp, hu]
  · have hnr : ¬ u.time ≤ s.songTime + hDelta s now := by
      simp only [Hold.gateFires, hp, hu, decide_True, Bool.true_and,
        decide_eq_false_iff_not] at hng
      exact hng
    simp [Hold.animationLoop, hp, hu, hnr]

theorem isEmpty_map {α β : Type} (f : α → β) (l : List α) :
    (l.map f).isEmpty = l.isEmpty := by
  cases l <;> rfl

/-- A note the display step finishes was finished already or fully past. -/
theorem hStepNote_finished_imp (e : ℚ) (n : SongNote)
    (h : (hStepNote e n).status = .finished) :
    n.status = .finished ∨ n.time + n.duration ≤ e := by
  by_cases h1 : n.status = .finished
  · exact Or.inl h1
  · right
    by_cases h2 : hSpawned e n = true
    · by_cases h3 : ANIMATION_AREA_HEIGHT ≤ hNoteY e n - n.duration * NOTE_FALL_SPEED_PPS
      · simp only [hNoteY, ANIMATION_AREA_HEIGHT, NOTE_FALL_SPEED_PPS] at h3
        nlinarith
      · rw [show hStepNote e n = { n with y := hNoteY e n } from by
          simp [hStepNote, h1, h2, h3]] at h
        exact absurd h h1
    · rw [show hStepNote e n = n from by simp [hStepNote, h1, h2]] at h
      exact absurd h h1

/-- The display step preserves `upcoming` for a note the clock has not fully
passed. -/
theorem hStepNote_upcoming_iff (e : ℚ) (n : SongNote)
    (h : n.status = .upcoming → e < n.time + n.duration) :
    ((hStepNote e n).status = .upcoming ↔ n.status = .upcoming) := by
  rcases hStepNote_status_cases e n with hs | hs
  · rw [hs]
  · rw [hs]
    constructor
    · intro h'
      exact absurd h' (by simp)
    · intro hup
      rcases hStepNote_finished_imp e n hs with hfin | hpast
      · rw [hup] at hfin
        exact absurd hfin (by simp)
      · exact absurd hpast (not_le.mpr (h hup))

/-- A hold-variant tick never changes the score: all score mutations live in
the input handlers. -/
theorem hold_score_invariant (s : Hold.HState) (now : ℚ) :
    (Hold.animationLoop s now).score = s.score := by
  by_cases hw : s.gameState = .waitingForInput
  · rw [animationLoop_waiting s now hw]
  · by_cases hp : s.gameState = .playing
    · by_cases hg : Hold.gateFires s now = true
      · simp only [Hold.gateFires, hp, decide_True, Bool.true_and] at hg
        rcases hu : s.songData.filter (fun n => decide (n.status = .upcoming)) with
          _ | ⟨u, rest⟩
        · rw [hu] at hg
          simp at hg
        · rw [hu] at hg
          simp only [decide_eq_true_eq] at hg
          rw [animationLoop_gate s now u rest hp hu hg]
      · rw [animationLoop_playing_hold s now hp (by simpa using hg)]
    · rw [animationLoop_else_hold s now hp hw]

/-- Overwriting `lastTimestamp` with its current value is the identity. -/
theorem hstate_set_lastTimestamp_self (X : Hold.HState) (now : ℚ)
    (h : X.lastTimestamp = now) :
    ({ X with lastTimestamp := now } : Hold.HState) = X := by
  rw [← h]

/-- The hold-variant tick is idempotent on any frame that does not open a
chord gate, provided the song is start-time-sorted with positive durations
and the clock has not passed any upcoming note. -/
theorem animationLoop_idem_hold (s : Hold.HState) (now : ℚ)
    (hsort : s.songData.Pairwise (fun a b => a.time ≤ b.time))
    (hdur : ∀ n ∈ s.songData, 0 < n.duration)
    (hfresh : ∀ n ∈ s.songData, n.status = .upcoming → s.songTime ≤ n.time)
    (hng : Hold.gateFires s now = false) :
    Hold.animationLoop (Hold.animationLoop s now) now = Hold.animationLoop s now := by
  by_cases hw : s.gameState = .waitingForInput
  · -- frozen chord-gate frame
    have h1 := animationLoop_waiting s now hw
    set chk := holdCheckNote now s.activelyHeld with hchk
    set C := s.songData.map chk with hC
    set D := C.map (hStepNote s.songTime) with hDdef
    have hCfresh : ∀ c ∈ C, c.status = .upcoming → s.songTime < c.time + c.duration := by
      intro c hc hcu
      rw [hC] at hc
      obtain ⟨n, hn, rfl⟩ := List.mem_map.mp hc
      have hnu := (holdCheckNote_upcoming now s.activelyHeld n).mp hcu
      have h5 := hfresh n hn hnu
      have hd := hdur n hn
      rw [hchk] at *
      rw [(holdCheckNote_fields now s.activelyHeld n).2.2.1,
        (holdCheckNote_fields now s.activelyHeld n).2.2.2.1]
      linarith
    have hpuD : D.filter (fun n => decide (n.status = .upcoming))
        = (C.filter (fun n => decide (n.status = .upcoming))).map
            (hStepNote s.songTime) := by
      rw [hDdef, List.filter_map]
      congr 1
      apply List.filter_congr
      intro c hc
      simp only [Function.comp_apply, decide_eq_decide]
      exact hStepNote_upcoming_iff _ _ (fun hcu => hCfresh c hc hcu)
    have hchkD : D.map chk = D := by
      rw [hDdef, hC]
      simp only [List.map_map]
      refine List.map_congr_left (fun a _ => ?_)
      simp only [Function.comp_apply, hchk]
      exact holdCheckNote_step_idem now s.songTime _ a
    have hstepD : D.map (hStepNote s.songTime) = D := by
      rw [hDdef, hC]
      simp only [List.map_map]
      refine List.map_congr_left (fun a _ => ?_)
      simp only [Function.comp_apply]
      exact hStepNote_idem _ (chk a)
    by_cases hfin : (((C.filter (fun n => decide (n.status = .upcoming))).isEmpty
        && s.waitingNotes.isEmpty
        && ((D.filter (hDisplayed s.songTime))).isEmpty) : Bool) = true
    · have hXg1 : ¬ (Hold.animationLoop s now).gameState = .playing := by
        rw [h1]
        simp [hfin]
      have hXg2 : ¬ (Hold.animationLoop s now).gameState = .waitingForInput := by
        rw [h1]
        simp [hfin]
      rw [animationLoop_else_hold _ now hXg1 hXg2]
      exact hstate_set_lastTimestamp_self _ now (by rw [h1])
    · have hw2 : (Hold.animationLoop s now).gameState = .waitingForInput := by
        rw [h1]
        simp [hfin]
      have hXsd : (Hold.animationLoop s now).songData = D := by rw [h1]
      have hXah : (Hold.animationLoop s now).activelyHeld = s.activelyHeld := by rw [h1]
      have hXst : (Hold.animationLoop s now).songTime = s.songTime := by rw [h1]
      have hXwn : (Hold.animationLoop s now).waitingNotes = s.waitingNotes := by rw [h1]
      have hXvn : (Hold.animationLoop s now).visualNotes
          = D.filter (hDisplayed s.songTime) := by rw [h1]
      have hXlt : (Hold.animationLoop s now).lastTimestamp = now := by rw [h1]
      have h2 := animationLoop_waiting _ now hw2
      rw [h2, hXsd, hXah, hXst, ← hchk, hchkD, hstepD]
      have hcond2 : ((D.filter (fun n => decide (n.status = .upcoming))).isEmpty
          && (Hold.animationLoop s now).waitingNotes.isEmpty
          && ((D.filter (hDisplayed s.songTime))).isEmpty) = false := by
        rw [hpuD, isEmpty_map, hXwn]
        simpa using hfin
      rw [hcond2]
      rcases hX : Hold.animationLoop s now with ⟨g, sd, hk, ah, wn, st, lt, sc, vn, pp⟩
      simp only [hX] at hXsd hXvn hXlt hw2 hXah hXst
      simp [hXsd, hXvn, hXlt, hw2, hXah, hXst]
  · by_cases hp : s.gameState = .playing
    · -- playing, no gate
      have h1 := animationLoop_playing_hold s now hp hng
      set T := s.songTime + hDelta s now with hT
      set D := s.songData.map (hStepNote T) with hDdef
      have hSfresh : ∀ n ∈ s.songData, n.status = .upcoming → T < n.time + n.duration := by
        intro n hn hnu
        rcases hu : s.songData.filter (fun m => decide (m.status = .upcoming)) with
          _ | ⟨u, rest⟩
        · exfalso
          have hcontra := List.filter_eq_nil_iff.mp hu n hn
          simp [hnu] at hcontra
        · have hnr : ¬ u.time ≤ T := by
            simp only [Hold.gateFires, hp, decide_True, Bool.true_and, hu,
              decide_eq_false_iff_not, hT] at hng
            exact hng
          have hmemf : n ∈ s.songData.filter (fun m => decide (m.status = .upcoming)) := by
            simp [List.mem_filter, hn, hnu]
          have hun : u.time ≤ n.time := by
            rw [hu] at hmemf
            rcases List.mem_cons.mp hmemf with rfl | hm'
            · exact le_refl _
            · have hpw : (u :: rest).Pairwise (fun a b => a.time ≤ b.time) := by
                rw [← hu]
                exact hsort.filter _
              exact (List.pairwise_cons.mp hpw).1 n hm'
          have hd := hdur n hn
          have := not_le.mp hnr
          linarith
      have hpuD : D.filter (fun n => decide (n.status = .upcoming))
          = (s.songData.filter (fun n => decide (n.status = .upcoming))).map
              (hStepNote T) := by
        rw [hDdef, List.filter_map]
        congr 1
        apply List.filter_congr
        intro n hn
        simp only [Function.comp_apply, decide_eq_decide]
        exact hStepNote_upcoming_iff _ _ (fun hnu => hSfresh n hn hnu)
      have hstepD : D.map (hStepNote T) = D := by
        rw [hDdef, List.map_map]
        refine List.map_congr_left (fun a _ => ?_)
        simp only [Function.comp_apply]
        exact hStepNote_idem _ a
      by_cases hfin : (((s.songData.filter (fun n => decide (n.status = .upcoming))).isEmpty
          && s.waitingNotes.isEmpty
          && ((D.filter (hDisplayed T))).isEmpty) : Bool) = true
      · have hXg1 : ¬ (Hold.animationLoop s now).gameState = .playing := by
          rw [h1]
          simp [hfin]
        have hXg2 : ¬ (Hold.animationLoop s now).gameState = .waitingForInput := by
          rw [h1]
          simp [hfin, hp]
        rw [animationLoop_else_hold _ now hXg1 hXg2]
        exact hstate_set_lastTimestamp_self _ now (by rw [h1])
      · have hp2 : (Hold.animationLoop s now).gameState = .playing := by
          rw [h1]
          simp [hfin, hp]
        have hXsd : (Hold.animationLoop s now).songData = D := by rw [h1]
        have hXst : (Hold.animationLoop s now).songTime = T := by rw [h1]
        have hXwn : (Hold.animationLoop s now).waitingNotes = s.waitingNotes := by rw [h1]
        have hXvn : (Hold.animationLoop s now).visualNotes
            = D.filter (hDisplayed T) := by rw [h1]
        have hXlt : (Hold.animationLoop s now).lastTimestamp = now := by rw [h1]
        have hdz : hDelta (Hold.animationLoop s now) now = 0 := hDelta_now _ _ hXlt
        have hng2 : Hold.gateFires (Hold.animationLoop s now) now = false := by
          simp only [Hold.gateFires, hp2, decide_True, Bool.true_and, hXsd, hdz, hXst,
            add_zero, hpuD]
          rcases hu : s.songData.filter (fun m => decide (m.status = .upcoming)) with
            _ | ⟨u, rest⟩
          · rw [hu]
            simp
          · have hnr : ¬ u.time ≤ T := by
              simp only [Hold.gateFires, hp, decide_True, Bool.true_and, hu,
                decide_eq_false_iff_not, hT] at hng
              exact hng
            rw [hu]
            simp only [List.map_cons]
            rw [(hStepNote_fields T u).2.2.1]
            simpa using hnr
        have h2 := animationLoop_playing_hold _ now hp2 hng2
        rw [h2, hXsd, hXst, hdz, add_zero, hstepD]
        have hcond2 : ((D.filter (fun n => decide (n.status = .upcoming))).isEmpty
            && (Hold.animationLoop s now).waitingNotes.isEmpty
            && ((D.filter (hDisplayed T))).isEmpty) = false := by
          rw [hpuD, isEmpty_map, hXwn]
          simpa using hfin
        rw [hcond2]
        rcases hX : Hold.animationLoop s now with ⟨g, sd, hk, ah, wn, st, lt, sc, vn, pp⟩
        simp only [hX] at hXsd hXvn hXlt hXst hp2 hXwn
        simp [hXsd, hXvn, hXlt, hXst, hp2, hXwn]
    · have h1 := animationLoop_else_hold s now hp hw
      rw [h1, animationLoop_else_hold _ now (by simpa using hp) (by simpa using hw)]

/-- **C8 counterexample**: on the gate-opening frame of `hGateState` (tick at
wall clock 1020 ms, clock clamped from 1.02 s back to the 1 s gate), the
first tick displays two notes (using the pre-clamp elapsed time) while a
second tick at the same timestamp displays only one: the visible-note set of
two successive ticks with the same `now` is not identical, refuting the
claim as stated. -/
theorem claim8_counterexample :
    (Hold.animationLoop hGateState 1020).visualNotes.length = 2 ∧
    (Hold.animationLoop (Hold.animationLoop hGateState 1020) 1020).visualNotes.length = 1 ∧
    ¬ ((Hold.animationLoop (Hold.animationLoop hGateState 1020) 1020).visualNotes
        = (Hold.animationLoop hGateState 1020).visualNotes) := by
  have h1 : (Hold.animationLoop hGateState 1020).visualNotes.length = 2 := by
    norm_num [Hold.animationLoop, hGateState, n0, hLate, hDelta, Hold.holdCheck,
      holdCheckNote, holdCond, gateNote, hStepNote, hSpawned, hNoteY, hDisplayed,
      ANIMATION_AREA_HEIGHT, NOTE_FALL_SPEED_PPS, List.filter_cons]
    repeat
      simp only [reduceCtorEq, reduceIte, if_false, if_true]
      try norm_num [List.filter_cons, hDisplayed, hSpawned, ANIMATION_AREA_HEIGHT,
        NOTE_FALL_SPEED_PPS]
  have h2 : (Hold.animationLoop (Hold.animationLoop hGateState 1020) 1020).visualNotes.length
      = 1 := by
    norm_num [Hold.animationLoop, hGateState, n0, hLate, hDelta, Hold.holdCheck,
      holdCheckNote, holdCond, gateNote, hStepNote, hSpawned, hNoteY, hDisplayed,
      ANIMATION_AREA_HEIGHT, NOTE_FALL_SPEED_PPS, List.filter_cons]
    repeat
      simp only [reduceCtorEq, reduceIte, if_false, if_true]
      try norm_num [List.filter_cons, hDisplayed, hSpawned, hStepNote, hNoteY,
        ANIMATION_AREA_HEIGHT, NOTE_FALL_SPEED_PPS]
  refine ⟨h1, h2, fun h => ?_⟩
  rw [← h] at h1
  rw [h2] at h1
  exact absurd h1 (by norm_num)

/-- **C8 amended** (Tick idempotence): the window-variant tick is fully
idempotent — a second `animationLoop` call with the same timestamp
reproduces the state exactly (identical visible-note set, statuses and
score). The hold-variant tick never changes the score, and is idempotent on
every frame that does not open a chord gate (for a start-time-sorted song
with positive durations whose clock has not passed an upcoming note); on a
gate-opening frame the first tick renders at the pre-clamp elapsed time, so
the second tick may produce a different visible-note set
(`claim8_counterexample`), though statuses gain no transitions and the
score still never changes. -/
theorem claim8_tick_idempotence_amended (sW : Window.WState) (nowW : ℚ)
    (sS : Hold.HState) (nowS : ℚ) (sH : Hold.HState) (nowH : ℚ)
    (hsort : sH.songData.Pairwise (fun a b => a.time ≤ b.time))
    (hdur : ∀ n ∈ sH.songData, 0 < n.duration)
    (hfresh : ∀ n ∈ sH.songData, n.status = .upcoming → sH.songTime ≤ n.time)
    (hng : Hold.gateFires sH nowH = false) :
    Window.animationLoop (Window.animationLoop sW nowW) nowW
      = Window.animationLoop sW nowW ∧
    (Hold.animationLoop sS nowS).score = sS.score ∧
    Hold.animationLoop (Hold.animationLoop sH nowH) nowH
      = Hold.animationLoop sH nowH :=
  ⟨animationLoop_idem_window sW nowW, hold_score_invariant sS nowS,
    animationLoop_idem_hold sH nowH hsort hdur hfresh hng⟩

/-- Witness for C8's amended theorem: the window tick at 1.1 s on
`wPlaying`, the score-invariant hold tick on `hGateState`, and the
idempotent non-gating hold tick on `hQuiet` (clock at 0.5 s, gate at 1 s). -/
theorem claim8_witness :
    (hQuiet.songData.Pairwise (fun a b => a.time ≤ b.time) ∧
      (∀ n ∈ hQuiet.songData, 0 < n.duration) ∧
      (∀ n ∈ hQuiet.songData, n.status = .upcoming → hQuiet.songTime ≤ n.time) ∧
      Hold.gateFires hQuiet 1020 = false) ∧
    (Window.animationLoop (Window.animationLoop wPlaying 1100) 1100
        = Window.animationLoop wPlaying 1100 ∧
      (Hold.animationLoop hGateState 1020).score = hGateState.score ∧
      Hold.animationLoop (Hold.animationLoop hQuiet 1020) 1020
        = Hold.animationLoop hQuiet 1020) :=
  ⟨⟨by norm_num [hQuiet, hGateState, n0, hLate, List.pairwise_cons],
      by intro n hn
         fin_cases hn <;> norm_num [n0, hLate],
      by intro n hn
         fin_cases hn <;> norm_num [hQuiet, hGateState, n0, hLate],
      by norm_num [Hold.gateFires, hQuiet, hGateState, hDelta, n0, hLate]⟩,
    claim8_tick_idempotence_amended wPlaying 1100 hGateState 1020 hQuiet 1020
      (by norm_num [hQuiet, hGateState, n0, hLate, List.pairwise_cons])
      (by intro n hn
          fin_cases hn <;> norm_num [n0, hLate])
      (by intro n hn
          fin_cases hn <;> norm_num [hQuiet, hGateState, n0, hLate])
      (by norm_num [Hold.gateFires, hQuiet, hGateState, hDelta, n0, hLate])⟩

open KeysJs in
/-- **C10** (Key table invariant): `generateKeys` returns exactly 88 key
records covering MIDI numbers 21 (A0) through 108 (C8) in ascending order;
exactly 52 are white and 36 black (`NUM_WHITE_KEYS = 52`); every white key's
`whiteKeyIndex` is the count of white keys preceding it, and every black key's
`whiteKeyIndex` equals the `whiteKeyIndex` of the immediately preceding key,
which is white. -/
theorem claim10_key_table :
    KEYS.length = 88 ∧
    KEYS.map (fun k => k.midi) = List.range' 21 88 ∧
    (KEYS.map (fun k => k.note)).head? = some "A0" ∧
    (KEYS.map (fun k => k.note)).getLast? = some "C8" ∧
    WHITE_KEYS.length = 52 ∧ BLACK_KEYS.length = 36 ∧ NUM_WHITE_KEYS = 52 ∧
    (∀ j, (h : j < KEYS.length) →
      ((KEYS.get ⟨j, h⟩).type = "white" →
        (KEYS.get ⟨j, h⟩).whiteKeyIndex =
          (((KEYS.take j).filter (fun k => decide (k.type = "white"))).length : Int)) ∧
      ((KEYS.get ⟨j, h⟩).type = "black" →
        0 < j ∧
        (KEYS.get ⟨j - 1, Nat.lt_of_le_of_lt (Nat.sub_le j 1) h⟩).type = "white" ∧
        (KEYS.get ⟨j, h⟩).whiteKeyIndex =
          (KEYS.get ⟨j - 1, Nat.lt_of_le_of_lt (Nat.sub_le j 1) h⟩).whiteKeyIndex)) := by
  refine ⟨by rfl, by decide, by rfl, by decide, by rfl, by decide, by rfl, ?_⟩
  decide

end PianoVisualizer
